import Mathlib

/-!
# Verification of the OGC building-blocks fetch pipeline

A shallow embedding of the register-to-resource transformation implemented in
src/bblocks/fetch.py: snippet classification, bbox envelope folding, GeoJSON
and STAC resource building, identifier collision handling, asset href
rewriting, and the serving-configuration merge.  Python dicts are modelled as
insertion-ordered association lists, JSON values as an inductive type with
rational numbers, machine paths as plain strings joined with slashes, and
fallible operations (KeyError, TypeError, and external-library failures)
return Except values.
-/

namespace BBlocks

/-- A JSON value as produced by json.loads: objects are insertion-ordered
association lists with unique keys (Python dict semantics). -/
inductive Json where
  | null
  | bool (b : Bool)
  | num (q : ℚ)
  | str (s : String)
  | arr (elems : List Json)
  | obj (entries : List (String × Json))

/-- Python dict .get: first binding of the key in an association list;
returns none for a non-object (call sites only pass dicts). -/
def jget (j : Json) (k : String) : Option Json :=
  match j with
  | .obj kvs => List.lookup k kvs
  | _ => none

/-- Python dict item assignment d[k] = v: replace the value in place if the
key exists, keeping its position, otherwise append the new binding. -/
def dictSet (l : List (String × Json)) (k : String) (v : Json) :
    List (String × Json) :=
  match l with
  | [] => [(k, v)]
  | (k', v') :: rest =>
    if k' == k then (k, v) :: rest else (k', v') :: dictSet rest k v

/-- d[k] = v on a JSON object; non-objects are returned unchanged (a
TypeError in Python, unreachable at the call sites in fetch.py). -/
def jset (j : Json) (k : String) (v : Json) : Json :=
  match j with
  | .obj kvs => .obj (dictSet kvs k v)
  | _ => j

/-- Python truthiness of a JSON value. -/
def truthy (j : Json) : Bool :=
  match j with
  | .null => false
  | .bool b => b
  | .num q => !(q == 0)
  | .str s => !(s == "")
  | .arr xs => !xs.isEmpty
  | .obj kvs => !kvs.isEmpty

/-- Truthiness of an optional JSON value (dict.get returning None is falsy). -/
def truthyO (j : Option Json) : Bool :=
  match j with
  | none => false
  | some v => truthy v

/-- Truthiness of an optional Python string (None and the empty string are
falsy). -/
def truthyS (s : Option String) : Bool :=
  match s with
  | none => false
  | some v => !(v == "")

/-- Python equality between a JSON value and a string literal: only a string
compares equal to a string. -/
def isStrEq (j : Json) (s : String) : Bool :=
  match j with
  | .str t => t == s
  | _ => false

/-- isinstance(x, dict). -/
def Json.isObj (j : Json) : Bool :=
  match j with
  | .obj _ => true
  | _ => false

/-- Iterate a JSON value as a Python list; non-lists yield nothing
(unreachable shapes at the call sites). -/
def asArr (j : Json) : List Json :=
  match j with
  | .arr xs => xs
  | _ => []

/-- str(Path('/') / p): prefix a slash unless the path is already absolute
(its first character is a slash). -/
def absPath (p : String) : String :=
  if p.data.head? = some '/' then p else "/" ++ p

/-- How many bindings of a key an association list holds (one for a Python
dict). -/
def countKey (l : List (String × Json)) (k : String) : Nat :=
  (l.filter (fun kv => kv.1 == k)).length

/- ## Snippet classification (fetch.py lines 93-117) -/

/-- One example snippet: language tag, reference URL and the already-parsed
JSON code (json.loads is external I/O; a parse failure aborts the register). -/
structure Snippet where
  language : Option String
  ref : Option String
  code : Json

/-- One example group: an ordered list of snippets. -/
structure Example where
  snippets : List Snippet

/-- A classified STAC item record {ref, code} (fetch.py lines 104-107). -/
structure StacItem where
  ref : Option String
  code : Json

/-- Classifier state: the feature-collection buckets (a Python dict keyed by
strings) and the STAC item list. -/
abbrev ClassifyState := List (String × Json) × List StacItem

/-- The loose-Feature branch (fetch.py lines 109-115):
fc = buckets.setdefault('', {}); if not fc: fc.update({'type':
'FeatureCollection', 'features': []}); fc['features'].append(code). -/
def bucketAppend (fcs : List (String × Json)) (code : Json) :
    List (String × Json) :=
  let fc := (List.lookup "" fcs).getD (Json.obj [])
  let fc := if !truthy fc then
      Json.obj [("type", .str "FeatureCollection"), ("features", .arr [])]
    else fc
  let fc := jset fc "features"
    (.arr (asArr ((jget fc "features").getD (.arr [])) ++ [code]))
  dictSet fcs "" fc

/-- Classification of a single snippet (fetch.py lines 95-117); i is the
enclosing example's positional index, used only by the dead
FeatureCollection branch. -/
def classifySnippet (i : Nat) (st : ClassifyState) (s : Snippet) :
    ClassifyState :=
  if s.language == some "json" then
    let c := s.code
    if !c.isObj then st
    else if !truthyO (jget c "type") then st
    else if isStrEq ((jget c "type").getD .null) "Feature" then
      if truthyO (jget c "stac_version") then
        (st.1, st.2 ++ [{ ref := s.ref, code := c }])
      else
        (bucketAppend st.1 c, st.2)
    else if isStrEq c "FeatureCollection" then
      (dictSet st.1 (toString i) c, st.2)
    else st
  else st

/-- Classify every snippet of every example of a building block, in document
order, with enumerate-style indices (fetch.py lines 91-117). -/
def classifyBBlock (examples : List Example) : ClassifyState :=
  (examples.enum).foldl
    (fun st ie => ie.2.snippets.foldl (classifySnippet ie.1) st) ([], [])

/-- Spec-side predicate: a snippet that the spec classifies as a loose
GeoJSON Feature (json language, object code, type equal to the string
Feature, no truthy stac_version). -/
def isLooseFeature (s : Snippet) : Bool :=
  s.language == some "json" && s.code.isObj &&
    isStrEq ((jget s.code "type").getD .null) "Feature" &&
    !truthyO (jget s.code "stac_version")

/-- Spec-side predicate: a snippet that the spec classifies as a STAC item
(json language, object code, type equal to the string Feature, truthy
stac_version). -/
def isStacSnippet (s : Snippet) : Bool :=
  s.language == some "json" && s.code.isObj &&
    isStrEq ((jget s.code "type").getD .null) "Feature" &&
    truthyO (jget s.code "stac_version")

/-- All snippets of a building block in encounter order. -/
def allSnippets (examples : List Example) : List Snippet :=
  examples.flatMap (·.snippets)

/-- Spec-side value: the loose-Feature codes in encounter order. -/
def specLooseFeatures (examples : List Example) : List Json :=
  (allSnippets examples).filterMap
    (fun s => if isLooseFeature s then some s.code else none)

/-- Spec-side value: the STAC item records in encounter order. -/
def specStacItems (examples : List Example) : List StacItem :=
  (allSnippets examples).filterMap
    (fun s => if isStacSnippet s then some { ref := s.ref, code := s.code }
      else none)

/-- The single feature-collection bucket the classifier can build: the
empty-string key holding a FeatureCollection with the given features. -/
def mkBucket (fs : List Json) : List (String × Json) :=
  if fs.isEmpty then []
  else [("", Json.obj [("type", .str "FeatureCollection"),
                       ("features", .arr fs)])]

/- ## Spatial envelope (fetch.py lines 40-64) -/

/-- Python min(a, b): the first argument wins ties. -/
def pymin (a b : ℚ) : ℚ := if a ≤ b then a else b

/-- Python max(a, b): the first argument wins ties. -/
def pymax (a b : ℚ) : ℚ := if b ≤ a then a else b

/-- The running envelope tuple (minX, minY, maxX, maxY), each coordinate
starting undefined (None). -/
structure EnvelopeBBox where
  minX : Option ℚ
  minY : Option ℚ
  maxX : Option ℚ
  maxY : Option ℚ
deriving DecidableEq

/-- The all-None initial envelope (fetch.py line 42). -/
def emptyEnvelope : EnvelopeBBox := ⟨none, none, none, none⟩

/-- One coordinate of get_updated_bbox: take the new bound if the running
one is undefined, else combine with min or max. -/
def updCoord (cur : Option ℚ) (f : ℚ → ℚ → ℚ) (v : ℚ) : ℚ :=
  match cur with
  | none => v
  | some c => f c v

/-- get_updated_bbox (fetch.py lines 44-55) applied to a concrete bounds
tuple. -/
def get_updated_bbox (env : EnvelopeBBox) (b : ℚ × ℚ × ℚ × ℚ) :
    EnvelopeBBox :=
  ⟨some (updCoord env.minX pymin b.1),
   some (updCoord env.minY pymin b.2.1),
   some (updCoord env.maxX pymax b.2.2.1),
   some (updCoord env.maxY pymax b.2.2.2)⟩

mutual

/-- All coordinate pairs appearing in a GeoJSON coordinates value: an array
whose first two elements are numbers is a position, any other array is
recursed into. -/
def Json.pts : Json → List (ℚ × ℚ)
  | .arr xs =>
    match xs with
    | .num x :: .num y :: _ => [(x, y)]
    | _ => Json.ptsList xs
  | _ => []

/-- Coordinate pairs of a list of JSON values. -/
def Json.ptsList : List Json → List (ℚ × ℚ)
  | [] => []
  | j :: js => Json.pts j ++ Json.ptsList js

end

/-- Modelled from the spec: shapely.geometry.shape(g).bounds, the external
library call at fetch.py line 45 (shapely is not part of this repository).
Per the spec, the bounds of a geometry are the element-wise minima and
maxima over its coordinate positions; a geometry with no coordinates has no
defined bounds (none). -/
def shapelyBounds (g : Json) : Option (ℚ × ℚ × ℚ × ℚ) :=
  match Json.pts ((jget g "coordinates").getD .null) with
  | [] => none
  | p :: ps =>
    some (ps.foldl
      (fun b q => (pymin b.1 q.1, pymin b.2.1 q.2,
                   pymax b.2.2.1 q.1, pymax b.2.2.2 q.2))
      (p.1, p.2, p.1, p.2))

/-- Fold one truthy geometry into the envelope; a geometry whose bounds are
undefined makes the update fail (indexing the empty bounds of an empty
shapely geometry). -/
def updGeomE (env : EnvelopeBBox) (g : Json) : Except Unit EnvelopeBBox :=
  match shapelyBounds g with
  | some b => .ok (get_updated_bbox env b)
  | none => .error ()

/-- The truthy geometry of a feature, if any (the walrus test at fetch.py
line 62). -/
def featGeom (f : Json) : Option Json :=
  if truthyO (jget f "geometry") then some ((jget f "geometry").getD .null)
  else none

/-- One iteration of the inner feature loop (fetch.py lines 61-63). -/
def featStep (e : EnvelopeBBox) (f : Json) : Except Unit EnvelopeBBox :=
  match featGeom f with
  | some g => updGeomE e g
  | none => pure e

/-- One iteration of the entry loop of get_envelop_bbox (fetch.py lines
57-63): a truthy geometry contributes directly, else each feature's truthy
geometry contributes. -/
def envEntryStep (env : EnvelopeBBox) (entry : Json) :
    Except Unit EnvelopeBBox :=
  if truthyO (jget entry "geometry") then
    updGeomE env ((jget entry "geometry").getD .null)
  else if truthyO (jget entry "features") then
    (asArr ((jget entry "features").getD .null)).foldlM featStep env
  else pure env

/-- get_envelop_bbox (fetch.py lines 40-64). -/
def get_envelop_bbox (collections : List Json) : Except Unit EnvelopeBBox :=
  collections.foldlM envEntryStep emptyEnvelope

/-- The contributing geometries of one entry, in the order the source visits
them. -/
def envEntryGeoms (entry : Json) : List Json :=
  if truthyO (jget entry "geometry") then [(jget entry "geometry").getD .null]
  else if truthyO (jget entry "features") then
    (asArr ((jget entry "features").getD .null)).filterMap featGeom
  else []

/-- All contributing geometries of an entry sequence, in visit order. -/
def contributingGeoms (collections : List Json) : List Json :=
  collections.flatMap envEntryGeoms

/-- The bounds of the contributing geometries, in visit order. -/
def contribBounds (collections : List Json) : List (ℚ × ℚ × ℚ × ℚ) :=
  (contributingGeoms collections).filterMap shapelyBounds

/-- The claim's covering property: each envelope coordinate is defined and
bounds the given geometry bounds tuple from the right side. -/
def coversBounds (env : EnvelopeBBox) (b : ℚ × ℚ × ℚ × ℚ) : Prop :=
  (∃ m, env.minX = some m ∧ m ≤ b.1) ∧
  (∃ m, env.minY = some m ∧ m ≤ b.2.1) ∧
  (∃ M, env.maxX = some M ∧ b.2.2.1 ≤ M) ∧
  (∃ M, env.maxY = some M ∧ b.2.2.2 ≤ M)

/-- Every coordinate of the envelope is defined. -/
def envDefined (env : EnvelopeBBox) : Prop :=
  env.minX.isSome = true ∧ env.minY.isSome = true ∧
  env.maxX.isSome = true ∧ env.maxY.isSome = true

/- ## Filesystem-safe identifiers and collision handling
     (fetch.py lines 21-22 and 186-195) -/

/-- A character the regex class [a-zA-Z0-9._-] accepts. -/
def safeChar (c : Char) : Bool :=
  c.isAlpha || c.isDigit || c == '.' || c == '_' || c == '-'

/-- Replace every maximal run of unsafe characters with a single underscore
(re.sub of the pattern [^a-zA-Z0-9._-]+ with _); prevBad records whether the
previous character belonged to a run being replaced. -/
def collapseUnsafe : List Char → Bool → List Char
  | [], _ => []
  | c :: cs, prevBad =>
    if safeChar c then c :: collapseUnsafe cs false
    else if prevBad then collapseUnsafe cs true
    else '_' :: collapseUnsafe cs true

/-- safe_filename (fetch.py lines 21-22). -/
def safe_filename (s : String) : String :=
  ⟨collapseUnsafe s.data false⟩

/-- Decimal digits of a character list, most significant first, as a Nat
(int of a Python digit string). -/
def digitsToNat (cs : List Char) : Nat :=
  cs.foldl (fun n c => n * 10 + (c.toNat - '0'.toNat)) 0

/-- The regex match (.+)_([0-9]+)$ on an identifier: splits off a nonempty
trailing digit group after the rightmost underscore preceding it, requiring a
nonempty prefix (fetch.py line 191). -/
def splitNumSuffix (s : String) : Option (String × Nat) :=
  let r := s.data.reverse
  let ds := r.takeWhile (·.isDigit)
  if ds.isEmpty then none
  else
    match r.drop ds.length with
    | '_' :: rest =>
      if rest.isEmpty then none
      else some (⟨rest.reverse⟩, digitsToNat ds.reverse)
    | _ => none

/-- One collision-resolution step (fetch.py lines 191-194): bump a trailing
numeric suffix, or append _2. -/
def bumpId (id : String) : String :=
  match splitNumSuffix id with
  | some (base, n) => base ++ "_" ++ toString (n + 1)
  | none => id ++ "_2"

/-- The collision-resolution while loop (fetch.py lines 190-194), with
enough fuel to cover every possible collision against the used set. -/
def dedupId : Nat → List String → String → String
  | 0, _, id => id
  | fuel + 1, used, id =>
    if used.contains id then dedupId fuel used (bumpId id) else id

/- ## Path suffix and stem arithmetic (pathlib semantics, fetch.py lines
     150-155) -/

/-- Split a path string into its directory prefix (including the final
slash) and its last component. -/
def splitLastSlash (cs : List Char) : List Char × List Char :=
  (cs.take (cs.length - (cs.reverse.takeWhile (· ≠ '/')).length),
   (cs.reverse.takeWhile (· ≠ '/')).reverse)

/-- Split a file name into stem and suffix per cpython pathlib: the suffix
starts at the last dot provided that dot is neither the first nor the last
character; otherwise the suffix is empty. -/
def nameSplitExt (name : List Char) : List Char × List Char :=
  if (name.reverse.takeWhile (· ≠ '.')).length = name.length then (name, [])
  else if 0 < name.length - (name.reverse.takeWhile (· ≠ '.')).length - 1 ∧
      ¬(name.reverse.takeWhile (· ≠ '.')).isEmpty then
    (name.take (name.length - (name.reverse.takeWhile (· ≠ '.')).length - 1),
     name.drop (name.length - (name.reverse.takeWhile (· ≠ '.')).length - 1))
  else (name, [])

/-- Path.with_suffix: replace the last component's suffix (or append the new
suffix when there is none). -/
def pyWithSuffix (path : String) (suffix : String) : String :=
  ⟨(splitLastSlash path.data).1 ++
    (nameSplitExt (splitLastSlash path.data).2).1 ++ suffix.data⟩

/-- Path.stem of the last component. -/
def pyStem (path : String) : String :=
  ⟨(nameSplitExt (splitLastSlash path.data).2).1⟩

/-- Path.with_stem: replace the last component's stem, keeping its suffix. -/
def pyWithStem (path : String) (newStem : String) : String :=
  ⟨(splitLastSlash path.data).1 ++ newStem.data ++
    (nameSplitExt (splitLastSlash path.data).2).2⟩

/-- The GeoJSON collection file path for one bucket (fetch.py lines
149-155): join the item identifier under the output directory, set the
suffix to .geojson, and for a non-empty bucket key append _key to the stem. -/
def geojsonPath (outDir id key : String) : String :=
  if key == "" then pyWithSuffix (outDir ++ "/" ++ id) ".geojson"
  else pyWithStem (pyWithSuffix (outDir ++ "/" ++ id) ".geojson")
    (pyStem (pyWithSuffix (outDir ++ "/" ++ id) ".geojson") ++ "_" ++ key)

/- ## STAC asset href rewriting (fetch.py lines 199-203) -/

/-- The regex check re.match of ^https?:// . -/
def startsHttp (s : String) : Bool :=
  s.startsWith "http://" || s.startsWith "https://"

/-- Rewrite one asset dict: a missing href raises KeyError and a non-string
href raises TypeError inside re.match (both abort the building block); an
href that is not an absolute http(s) URL is resolved against the item
reference with urljoin (the external uj function). -/
def rewriteAsset (uj : String → String → String) (ref : String)
    (asset : Json) : Except Unit Json :=
  match jget asset "href" with
  | some (.str h) =>
    if startsHttp h then .ok asset
    else .ok (jset asset "href" (.str (uj ref h)))
  | some _ => .error ()
  | none => .error ()

/-- The asset-rewriting step for one item (fetch.py lines 199-203): only
runs under a truthy item reference; iterates the values of the assets dict
(defaulting to an empty dict) in order, mutating each asset in place. -/
def rewriteAssets (uj : String → String → String) (ref : Option String)
    (code : Json) : Except Unit Json :=
  if truthyS ref then
    match jget code "assets" with
    | none => pure code
    | some (.obj assets) =>
      (assets.mapM (fun kv =>
        rewriteAsset uj (ref.getD "") kv.2 >>= fun a => pure (kv.1, a))) >>=
        fun assets' => pure (jset code "assets" (.obj assets'))
    | some _ => .error ()
  else pure code

/-- Claim-side predicate: every asset of the item (if an assets object is
present) is an object holding a string href. -/
def assetsOk (item : Json) : Bool :=
  match jget item "assets" with
  | none => true
  | some (.obj l) => l.all (fun kv =>
    match jget kv.2 "href" with
    | some (.str _) => true
    | _ => false)
  | some _ => false

/-- Claim-side predicate: the item has an assets object and some asset of
it lacks an href key. -/
def someAssetMissingHref (item : Json) : Bool :=
  match jget item "assets" with
  | some (.obj l) => l.any (fun kv => (jget kv.2 "href").isNone)
  | _ => false

/-- The claim's description of one rewritten asset: an href already
matching http(s):// is untouched, any other href is replaced by its URL
resolution against the reference. -/
def claimedAssetFix (uj : String → String → String) (r : String)
    (a : Json) : Json :=
  match jget a "href" with
  | some (.str h) => if startsHttp h then a else jset a "href" (.str (uj r h))
  | _ => a

/-- The claim's description of the whole asset-rewriting step, keyed on a
non-null reference URL: with a reference, every asset is rewritten as
claimedAssetFix describes; without one, the item is untouched. -/
def claimedAssetRewrite (uj : String → String → String) (ref : Option String)
    (item : Json) : Json :=
  match ref with
  | none => item
  | some r =>
    match jget item "assets" with
    | some (.obj assets) =>
      jset item "assets"
        (.obj (assets.map (fun kv => (kv.1, claimedAssetFix uj r kv.2))))
    | _ => item

/- ## The per-building-block resource builder (fetch.py lines 89-243) -/

/-- A building block document, with the fields fetch.py reads:
itemIdentifier and name are indexed directly (a KeyError would abort the
register, so they are required), the rest are read through dict.get. -/
structure BBlock where
  itemIdentifier : String
  name : String
  abstract : Option Json
  tags : Option Json
  ldContext : Option Json
  examples : List Example

/-- The external inputs the per-register loop closes over: the data
directory, the resolved fallback SPARQL endpoint, and the external urljoin
function. -/
structure Cfg where
  dataDir : String
  fallbackSparql : Option String
  uj : String → String → String

/-- The mutable state of the per-register loop: the stac directory variable
(reassigned inside the loop at fetch.py line 169), the accumulated
output_resources dict, and the file writes performed so far, in order. -/
structure RunState where
  stacDir : String
  outputResources : List (String × Json)
  writes : List (String × Json)

/-- The linked-data configuration block (fetch.py lines 136-146 and
232-242): verbatim context injection, id replacement, the context wrapped in
a singleton list, and the fallback SPARQL endpoint only when truthy. -/
def ldConfig (ld : Json) (fallback : Option String) : Json :=
  .obj ([("inject_verbatim_context", .bool true),
         ("replace_id_field", .str "id"),
         ("context", .arr [ld])] ++
    (match fallback with
     | some s => if s == "" then [] else [("fallback_sparql_endpoint", .str s)]
     | none => []))

/-- Attach the linked-data block to a resource when the building block has a
truthy ldContext. -/
def attachLd (resource : Json) (ld : Option Json) (fallback : Option String) :
    Json :=
  if truthyO ld then jset resource "linked-data" (ldConfig (ld.getD .null) fallback)
  else resource

/-- A JSON bbox value as json.dump renders the envelope tuple. -/
def bboxJson (e : EnvelopeBBox) : Json :=
  .arr [optQ e.minX, optQ e.minY, optQ e.maxX, optQ e.maxY]
where optQ : Option ℚ → Json
  | none => .null
  | some q => .num q

/-- One feature provider entry (fetch.py lines 159-163). -/
def providerFeature (data : String) : Json :=
  .obj [("type", .str "feature"), ("name", .str "GeoJSON"),
        ("data", .str data)]

/-- The per-bucket GeoJSON file writes of one building block: each bucket's
content at its derived path, in bucket order (fetch.py lines 149-158). -/
def geoWrites (cfg : Cfg) (b : BBlock) (fcs : List (String × Json)) :
    List (String × Json) :=
  fcs.map (fun kv =>
    (geojsonPath (cfg.dataDir ++ "/bblocks") b.itemIdentifier kv.1, kv.2))

/-- The provider list of the GeoJSON resource: one feature provider per
written file, pointing at its absolutised path (fetch.py lines 159-163). -/
def geoProviders (cfg : Cfg) (b : BBlock) (fcs : List (String × Json)) :
    List Json :=
  (geoWrites cfg b fcs).map (fun pv => providerFeature (absPath pv.1))

/-- The collection resource descriptor of the GeoJSON branch (fetch.py
lines 123-164): base fields, the optional linked-data block, and finally
the providers key. -/
def geoResource (cfg : Cfg) (b : BBlock) (bbox : EnvelopeBBox)
    (fcs : List (String × Json)) : Json :=
  jset
    (attachLd
      (Json.obj
        [("type", .str "collection"), ("visibility", .str "default"),
         ("title", .str b.name), ("description", b.abstract.getD (.str "")),
         ("keywords", b.tags.getD (.arr [])),
         ("extents", .obj [("spatial", .obj [("bbox", bboxJson bbox)])])])
      b.ldContext cfg.fallbackSparql)
    "providers" (.arr (geoProviders cfg b fcs))

/-- The GeoJSON branch (fetch.py lines 119-166): compute the envelope over
the bucket values, build the collection resource, write one file per bucket
and record one provider per file, then register the resource under the item
identifier. -/
def processGeojson (cfg : Cfg) (st : RunState) (b : BBlock)
    (fcs : List (String × Json)) : Except Unit RunState :=
  get_envelop_bbox (fcs.map Prod.snd) >>= fun bbox =>
  pure { st with
    outputResources := dictSet st.outputResources b.itemIdentifier
      (geoResource cfg b bbox fcs),
    writes := st.writes ++ geoWrites cfg b fcs }

/-- The strings of an item's stac_extensions value (item.get with a default
of the empty tuple); non-list shapes and non-string elements contribute
nothing (unreachable input shapes would raise in Python). -/
def stacExtStrings (code : Json) : List String :=
  match jget code "stac_extensions" with
  | some (.arr xs) => xs.filterMap (fun j => match j with
    | .str s => some s
    | _ => none)
  | _ => []

/-- Python set union by repeated insertion; the iteration order of a Python
set is not observed by any claim, so the set is modelled as a
first-insertion-ordered deduplicated list. -/
def extUnion (cur new : List String) : List String :=
  new.foldl (fun acc s => if acc.contains s then acc else acc ++ [s]) cur

/-- The per-item loop state of the STAC branch: the added_items set (which
the source never inserts into), the catalog links, the accumulated extension
set, and the item file writes. -/
structure StacLoop where
  addedItems : List String
  links : List Json
  extensions : List String
  writes : List (String × Json)

/-- The safe file name of one item: collision resolution of the sanitised
raw id against added_items, sanitised again (fetch.py lines 189-195). -/
def stacIdFn (ls : StacLoop) (rawId : String) : String :=
  safe_filename (dedupId (ls.addedItems.length + 1) ls.addedItems
    (safe_filename rawId))

/-- The loop state after one successfully processed item (fetch.py lines
196-211): the item file write under its own subdirectory, the catalog link,
the extension union — and addedItems unchanged, exactly as in the source,
which never inserts the resolved identifier into added_items. -/
def stacItemOut (stacDir : String) (ls : StacLoop) (rawId : String)
    (code : Json) : StacLoop :=
  { addedItems := ls.addedItems,
    links := ls.links ++
      [Json.obj [("rel", .str "item"),
                 ("href", .str ("./" ++ stacIdFn ls rawId ++ "/" ++
                   stacIdFn ls rawId ++ ".json"))]],
    extensions := extUnion ls.extensions (stacExtStrings code),
    writes := ls.writes ++
      [(stacDir ++ "/" ++ stacIdFn ls rawId ++ "/" ++ stacIdFn ls rawId ++
         ".json", code)] }

/-- One iteration of the STAC item loop (fetch.py lines 186-211): extract
the raw id (a missing or non-string id aborts), run collision resolution
against added_items, build the safe file name, rewrite asset hrefs, write
the item file, append the catalog link and union the item's extensions. -/
def stacItemStep (cfg : Cfg) (stacDir : String) (ls : StacLoop)
    (item : StacItem) : Except Unit StacLoop :=
  (match jget item.code "id" with
   | some (.str s) => Except.ok s
   | _ => Except.error ()) >>= fun rawId =>
  rewriteAssets cfg.uj item.ref item.code >>= fun code =>
  pure (stacItemOut stacDir ls rawId code)

/-- One stac provider entry (fetch.py lines 221-230). -/
def providerStac (data : String) : Json :=
  .obj [("type", .str "stac"), ("name", .str "Hateoas"),
        ("data", .str data),
        ("file_types", .arr [.str "catalog.json"])]

/-- The STAC catalog document (fetch.py lines 175-184 and 213): key order
as initialised, with stac_extensions filled in after the loop and the
accumulated links. -/
def stacCatalog (b : BBlock) (exts : List String) (links : List Json) :
    Json :=
  .obj
    [("id", .str b.itemIdentifier),
     ("title", .str (b.name ++ " catalog")),
     ("description", .str ("STAC Catalog for examples in " ++ b.name ++
       " building block.")),
     ("type", .str "Catalog"),
     ("stac_version", .str "1.0.0"),
     ("stac_extensions", .arr (exts.map Json.str)),
     ("links", .arr links)]

/-- The stac-collection resource descriptor (fetch.py lines 217-242). -/
def stacResource (cfg : Cfg) (b : BBlock) (stacDir : String) : Json :=
  attachLd
    (Json.obj
      [("type", .str "stac-collection"),
       ("title", .str (b.name ++ " catalog")),
       ("description", .str ("STAC Catalog for examples in " ++ b.name ++
         " building block.")),
       ("providers", .arr [providerStac (absPath stacDir)])])
    b.ldContext cfg.fallbackSparql

/-- The STAC branch (fetch.py lines 168-243).  The branch starts by
reassigning the loop-wide stac_dir variable (line 169), so the produced
directory nests under whatever the variable held when the branch ran, and
the nested value is stored back into the run state. -/
def processStac (cfg : Cfg) (st : RunState) (b : BBlock)
    (items : List StacItem) : Except Unit RunState :=
  (items.foldlM (stacItemStep cfg (st.stacDir ++ "/" ++ b.itemIdentifier))
    { addedItems := [], links := [], extensions := [], writes := [] }) >>=
  fun loopSt =>
  pure { stacDir := st.stacDir ++ "/" ++ b.itemIdentifier,
         outputResources := dictSet st.outputResources b.itemIdentifier
           (stacResource cfg b (st.stacDir ++ "/" ++ b.itemIdentifier)),
         writes := st.writes ++ loopSt.writes ++
           [(st.stacDir ++ "/" ++ b.itemIdentifier ++ "/catalog.json",
             stacCatalog b loopSt.extensions loopSt.links)] }

/-- Process one building block (the body of the loop at fetch.py lines
89-243): classify the snippets, then run the GeoJSON branch when there are
buckets and the STAC branch when there are items. -/
def processBBlock (cfg : Cfg) (st : RunState) (b : BBlock) :
    Except Unit RunState :=
  (if (classifyBBlock b.examples).1.isEmpty then pure st
   else processGeojson cfg st b (classifyBBlock b.examples).1) >>= fun st1 =>
  if (classifyBBlock b.examples).2.isEmpty then pure st1
  else processStac cfg st1 b (classifyBBlock b.examples).2

/-- Process every building block of one register (fetch.py lines 72-243),
with output_resources empty and stac_dir initialised to the stac
subdirectory of the data directory. -/
def processBBlocks (cfg : Cfg) (bbs : List BBlock) : Except Unit RunState :=
  bbs.foldlM (processBBlock cfg)
    { stacDir := cfg.dataDir ++ "/stac", outputResources := [], writes := [] }

/- ## Serving-configuration merge (fetch.py lines 301-318) -/

/-- Does the recorded source-register tag of an existing entry name one of
the processed registers?  Python evaluates v.get('bblocks_register') not in
new_resources, where the keys of new_resources are the register URL strings;
a missing tag gives None and a non-string tag can equal no key, so both are
kept. -/
def tagMatches (v : Json) (regs : List String) : Bool :=
  match jget v "bblocks_register" with
  | some (.str s) => regs.contains s
  | _ => false

/-- Tag every freshly built descriptor of one register with the register URL
(fetch.py lines 301-302). -/
def tagResources (url : String) (rs : List (String × Json)) :
    List (String × Json) :=
  rs.map (fun kv => (kv.1, jset kv.2 "bblocks_register" (.str url)))

/-- The configuration merge (fetch.py lines 310-318): keep the existing
entries whose tag is not among the processed registers, then overlay every
newly built entry, register by register, with dict-update semantics. -/
def mergeResources (existing : List (String × Json))
    (newRes : List (String × List (String × Json))) : List (String × Json) :=
  let regs := newRes.map Prod.fst
  let kept := existing.filter (fun kv => !tagMatches kv.2 regs)
  newRes.foldl
    (fun acc ur => ur.2.foldl (fun a kv => dictSet a kv.1 kv.2) acc) kept

/-- The full merge as _main performs it: tag each register's new resources
with its URL, then merge into the existing resources map. -/
def mergeRun (existing : List (String × Json))
    (newRes : List (String × List (String × Json))) : List (String × Json) :=
  mergeResources existing (newRes.map (fun ur => (ur.1, tagResources ur.1 ur.2)))

/- ## Concrete fixtures for witnesses and counterexamples -/

/-- Extract a JSON string value. -/
def jsonAsStr : Json → Option String
  | .str s => some s
  | _ => none

/-- The href strings of a catalog's links array. -/
def linkHrefs (catalog : Json) : List (Option String) :=
  (asArr ((jget catalog "links").getD .null)).map
    (fun l => (jget l "href").bind jsonAsStr)

/-- A concrete urljoin stand-in: string append, which is the identity when
the base is empty, as the Python function is. -/
def ujConcat : String → String → String := fun r s => r ++ s

/-- A concrete run configuration with a relative data directory. -/
def cfg0 : Cfg := { dataDir := "data", fallbackSparql := none, uj := ujConcat }

/-- A minimal STAC item snippet with the given raw id. -/
def fxStac (idv : String) : Snippet :=
  { language := some "json", ref := none,
    code := .obj [("type", .str "Feature"), ("stac_version", .str "1.0.0"),
                  ("id", .str idv)] }

/-- A loose Feature snippet without geometry. -/
def fxLoose : Snippet :=
  { language := some "json", ref := none,
    code := .obj [("type", .str "Feature")] }

/-- A building block whose examples contain two STAC items with the same
raw id site. -/
def fxSite : BBlock :=
  { itemIdentifier := "B", name := "B", abstract := none, tags := none,
    ldContext := none, examples := [⟨[fxStac "site", fxStac "site"]⟩] }

/-- A building block with one STAC item, identifier A. -/
def fxA : BBlock :=
  { itemIdentifier := "A", name := "A", abstract := none, tags := none,
    ldContext := none, examples := [⟨[fxStac "a"]⟩] }

/-- A building block with one STAC item, identifier B2. -/
def fxB : BBlock :=
  { itemIdentifier := "B2", name := "B2", abstract := none, tags := none,
    ldContext := none, examples := [⟨[fxStac "b"]⟩] }

/-- A building block with a dotted item identifier and one loose feature. -/
def fxDot : BBlock :=
  { itemIdentifier := "a.b", name := "n", abstract := none, tags := none,
    ldContext := none, examples := [⟨[fxLoose]⟩] }

/-- A building block producing both a feature-collection bucket and a STAC
item list. -/
def fxBoth : BBlock :=
  { itemIdentifier := "X", name := "X", abstract := none, tags := none,
    ldContext := none, examples := [⟨[fxLoose, fxStac "a"]⟩] }

/-- A plain-identifier building block with one loose feature, for the
amended GeoJSON-path witness. -/
def fxPlain : BBlock :=
  { itemIdentifier := "plain", name := "n", abstract := none, tags := none,
    ldContext := none, examples := [⟨[fxLoose]⟩] }

/-- A concrete entry list for the envelope witness: a feature collection
with two point features plus a geometry-less feature. -/
def fxCollections : List Json :=
  [.obj [("type", .str "FeatureCollection"),
         ("features", .arr
           [.obj [("type", .str "Feature"),
                  ("geometry", .obj [("type", .str "Point"),
                                     ("coordinates", .arr [.num 1, .num 2])])],
            .obj [("type", .str "Feature")],
            .obj [("type", .str "Feature"),
                  ("geometry", .obj [("type", .str "Point"),
                                     ("coordinates", .arr [.num 3, .num 1])])]])]]

/-- A STAC item body with one relative-href asset and one absolute-href
asset. -/
def fxAssetsItem : Json :=
  .obj [("type", .str "Feature"), ("id", .str "a"),
        ("assets", .obj
          [("thumb", .obj [("href", .str "t.png")]),
           ("big", .obj [("href", .str "https://z/q.png")])])]

/-- A STAC item body whose single asset has no href key. -/
def fxNoHrefItem : Json :=
  .obj [("type", .str "Feature"), ("stac_version", .str "1.0.0"),
        ("id", .str "a"),
        ("assets", .obj [("thumb", .obj [("title", .str "x")])])]

/-- The classified STAC record carrying fxNoHrefItem with a truthy ref. -/
def fxNoHrefStacItem : StacItem :=
  { ref := some "https://x/", code := fxNoHrefItem }

/-- A building block whose single snippet is the missing-href STAC item. -/
def fxNoHrefBB : BBlock :=
  { itemIdentifier := "N", name := "N", abstract := none, tags := none,
    ldContext := none,
    examples := [⟨[{ language := some "json", ref := some "https://x/",
                     code := fxNoHrefItem }]⟩] }

/-- The initial run state of a register processed under cfg0. -/
def rs0 : RunState :=
  { stacDir := "data/stac", outputResources := [], writes := [] }

/-- An existing configuration-resources map: two entries tagged with
registers r1 and r2, one untagged entry. -/
def fxExisting : List (String × Json) :=
  [("old1", .obj [("bblocks_register", .str "https://r1")]),
   ("old2", .obj [("bblocks_register", .str "https://r2")]),
   ("old3", .obj [("type", .str "collection")])]

/-- Newly built resources from one processed register r1. -/
def fxNewRes : List (String × List (String × Json)) :=
  [("https://r1", [("n1", .obj [("type", .str "collection")])])]

/-- The classifier output buckets of fxPlain. -/
def fxPlainFcs : List (String × Json) :=
  [("", .obj [("type", .str "FeatureCollection"),
              ("features", .arr [.obj [("type", .str "Feature")]])])]

/- # Lemmas and claim theorems -/

/- ## Classification (claims C3 and C5) -/

theorem isStrEq_feature_of_not_truthyO (o : Option Json)
    (h : truthyO o = false) : isStrEq (o.getD .null) "Feature" = false := by
  cases o with
  | none => rfl
  | some v => cases v <;> simp_all [truthyO, truthy, isStrEq]

theorem isStrEq_obj (kvs : List (String × Json)) (s : String) :
    isStrEq (.obj kvs) s = false := rfl

theorem bucketAppend_mkBucket (fs : List Json) (c : Json) :
    bucketAppend (mkBucket fs) c = mkBucket (fs ++ [c]) := by
  cases fs <;> rfl

theorem isStrEq_false_of_isObj (j : Json) (h : j.isObj = true) (s : String) :
    isStrEq j s = false := by
  cases j <;> simp_all [Json.isObj, isStrEq]

theorem classifySnippet_eq (i : Nat) (st : ClassifyState) (s : Snippet) :
    classifySnippet i st s =
      if isStacSnippet s then (st.1, st.2 ++ [{ ref := s.ref, code := s.code }])
      else if isLooseFeature s then (bucketAppend st.1 s.code, st.2)
      else st := by
  unfold classifySnippet isStacSnippet isLooseFeature
  cases hL : (s.language == some "json") <;>
    cases hO : s.code.isObj <;>
      cases hT : truthyO (jget s.code "type") <;>
        cases hF : isStrEq ((jget s.code "type").getD .null) "Feature" <;>
          cases hV : truthyO (jget s.code "stac_version") <;>
            simp_all [isStrEq_feature_of_not_truthyO, isStrEq_false_of_isObj]

theorem not_loose_of_stac (s : Snippet) (h : isStacSnippet s = true) :
    isLooseFeature s = false := by
  unfold isStacSnippet at h
  unfold isLooseFeature
  simp only [Bool.and_eq_true] at h
  obtain ⟨⟨⟨h1, h2⟩, h3⟩, h4⟩ := h
  simp [h1, h2, h3, h4]

theorem classifyList_eq (i : Nat) (snips : List Snippet) :
    ∀ (fs : List Json) (items : List StacItem),
      snips.foldl (classifySnippet i) (mkBucket fs, items) =
        (mkBucket (fs ++ snips.filterMap
            (fun s => if isLooseFeature s then some s.code else none)),
         items ++ snips.filterMap
            (fun s => if isStacSnippet s then
              some { ref := s.ref, code := s.code } else none)) := by
  induction snips with
  | nil => intro fs items; simp
  | cons s rest ih =>
    intro fs items
    simp only [List.foldl_cons, classifySnippet_eq]
    by_cases hS : isStacSnippet s = true
    · rw [if_pos hS]
      have hL := not_loose_of_stac s hS
      rw [ih fs (items ++ [StacItem.mk s.ref s.code])]
      simp [hS, hL, List.append_assoc]
    · have hS' : isStacSnippet s = false := by revert hS; cases isStacSnippet s <;> simp
      rw [if_neg (by simp [hS'])]
      by_cases hLo : isLooseFeature s = true
      · rw [if_pos hLo, bucketAppend_mkBucket]
        rw [ih (fs ++ [s.code]) items]
        simp [hS', hLo, List.append_assoc]
      · have hLo' : isLooseFeature s = false := by
          revert hLo; cases isLooseFeature s <;> simp
        rw [if_neg (by simp [hLo'])]
        simpa [hS', hLo'] using ih fs items

theorem classifyEnumFrom_eq (exs : List Example) :
    ∀ (n : Nat) (fs : List Json) (items : List StacItem),
      (List.enumFrom n exs).foldl
          (fun st ie => ie.2.snippets.foldl (classifySnippet ie.1) st)
          (mkBucket fs, items) =
        (mkBucket (fs ++ specLooseFeatures exs),
         items ++ specStacItems exs) := by
  induction exs with
  | nil => intro n fs items; simp [specLooseFeatures, specStacItems, allSnippets]
  | cons e rest ih =>
    intro n fs items
    simp only [List.enumFrom, List.foldl_cons]
    rw [classifyList_eq]
    rw [ih]
    simp [specLooseFeatures, specStacItems, allSnippets, List.append_assoc]

theorem classifyBBlock_eq (examples : List Example) :
    classifyBBlock examples =
      (mkBucket (specLooseFeatures examples), specStacItems examples) := by
  have h := classifyEnumFrom_eq examples 0 [] []
  simpa [classifyBBlock, List.enum] using h

/-- C3: loose Feature snippets (json language, object code, type equal to
the string Feature, no truthy stac_version) are appended, in encounter
order, to the features array of the lazily-initialised empty-string
feature-collection bucket, while snippets with a truthy stac_version are
appended as ref/code records, in encounter order, to the STAC item list and
to no feature-collection bucket: the classifier's final state is exactly
the bucket of the loose features together with the list of STAC records. -/
theorem c3_snippet_classification (examples : List Example) :
    classifyBBlock examples =
      (mkBucket (specLooseFeatures examples), specStacItems examples) :=
  classifyBBlock_eq examples

/-- C5: the FeatureCollection classifier branch compares a JSON object
against a string literal, which is always false, so the branch never fires
and the bucket map can only ever hold the empty-string key. -/
theorem c5_dead_featurecollection_branch :
    (∀ (kvs : List (String × Json)) (s : String),
      isStrEq (.obj kvs) s = false) ∧
    (∀ examples : List Example,
      (classifyBBlock examples).1.map Prod.fst = [] ∨
      (classifyBBlock examples).1.map Prod.fst = [""]) := by
  refine ⟨fun kvs s => rfl, fun examples => ?_⟩
  rw [classifyBBlock_eq]
  unfold mkBucket
  by_cases h : (specLooseFeatures examples).isEmpty
  · left; simp [h]
  · right; simp [h]

/- ## Envelope bbox fold (claim C4) -/

theorem pymin_le_left (a b : ℚ) : pymin a b ≤ a := by
  unfold pymin; split
  · exact le_rfl
  · exact le_of_not_le (by assumption)

theorem pymin_le_right (a b : ℚ) : pymin a b ≤ b := by
  unfold pymin; split
  · assumption
  · exact le_rfl

theorem le_pymax_left (a b : ℚ) : a ≤ pymax a b := by
  unfold pymax; split
  · exact le_rfl
  · exact le_of_not_le (by assumption)

theorem le_pymax_right (a b : ℚ) : b ≤ pymax a b := by
  unfold pymax; split
  · assumption
  · exact le_rfl

theorem updCoord_pymin_le (cur : Option ℚ) (v : ℚ) :
    updCoord cur pymin v ≤ v := by
  cases cur with
  | none => exact le_rfl
  | some c => exact pymin_le_right c v

theorem le_updCoord_pymax (cur : Option ℚ) (v : ℚ) :
    v ≤ updCoord cur pymax v := by
  cases cur with
  | none => exact le_rfl
  | some c => exact le_pymax_right c v

theorem coversBounds_upd_self (env : EnvelopeBBox) (b : ℚ × ℚ × ℚ × ℚ) :
    coversBounds (get_updated_bbox env b) b :=
  ⟨⟨_, rfl, updCoord_pymin_le env.minX b.1⟩,
   ⟨_, rfl, updCoord_pymin_le env.minY b.2.1⟩,
   ⟨_, rfl, le_updCoord_pymax env.maxX b.2.2.1⟩,
   ⟨_, rfl, le_updCoord_pymax env.maxY b.2.2.2⟩⟩

theorem coversBounds_upd_mono (env : EnvelopeBBox) (b b' : ℚ × ℚ × ℚ × ℚ)
    (h : coversBounds env b) : coversBounds (get_updated_bbox env b') b := by
  obtain ⟨⟨m1, h1, l1⟩, ⟨m2, h2, l2⟩, ⟨M3, h3, g3⟩, ⟨M4, h4, g4⟩⟩ := h
  refine ⟨⟨_, rfl, ?_⟩, ⟨_, rfl, ?_⟩, ⟨_, rfl, ?_⟩, ⟨_, rfl, ?_⟩⟩
  · rw [h1]; exact le_trans (pymin_le_left m1 b'.1) l1
  · rw [h2]; exact le_trans (pymin_le_left m2 b'.2.1) l2
  · rw [h3]; exact le_trans g3 (le_pymax_left M3 b'.2.2.1)
  · rw [h4]; exact le_trans g4 (le_pymax_left M4 b'.2.2.2)

theorem coversBounds_foldl (bs : List (ℚ × ℚ × ℚ × ℚ)) :
    ∀ (env : EnvelopeBBox) (b : ℚ × ℚ × ℚ × ℚ), coversBounds env b →
      coversBounds (bs.foldl get_updated_bbox env) b := by
  induction bs with
  | nil => intro env b h; exact h
  | cons hd tl ih =>
    intro env b h
    exact ih (get_updated_bbox env hd) b (coversBounds_upd_mono env b hd h)

theorem coversBounds_mem (bs : List (ℚ × ℚ × ℚ × ℚ)) :
    ∀ (env : EnvelopeBBox) (b : ℚ × ℚ × ℚ × ℚ), b ∈ bs →
      coversBounds (bs.foldl get_updated_bbox env) b := by
  induction bs with
  | nil => intro env b h; cases h
  | cons hd tl ih =>
    intro env b hb
    rcases List.mem_cons.mp hb with rfl | hb
    · exact coversBounds_foldl tl _ b (coversBounds_upd_self env b)
    · exact ih (get_updated_bbox env hd) b hb

theorem envDefined_upd (env : EnvelopeBBox) (b : ℚ × ℚ × ℚ × ℚ) :
    envDefined (get_updated_bbox env b) :=
  ⟨rfl, rfl, rfl, rfl⟩

theorem envDefined_foldl (bs : List (ℚ × ℚ × ℚ × ℚ)) :
    ∀ env : EnvelopeBBox, envDefined env →
      envDefined (bs.foldl get_updated_bbox env) := by
  induction bs with
  | nil => intro env h; exact h
  | cons hd tl ih => intro env _; exact ih _ (envDefined_upd env hd)

theorem envDefined_foldl_ne_nil (bs : List (ℚ × ℚ × ℚ × ℚ)) (h : bs ≠ [])
    (env : EnvelopeBBox) : envDefined (bs.foldl get_updated_bbox env) := by
  cases bs with
  | nil => exact absurd rfl h
  | cons hd tl => exact envDefined_foldl tl _ (envDefined_upd env hd)

theorem updGeomE_eq (env : EnvelopeBBox) (g : Json) (b : ℚ × ℚ × ℚ × ℚ)
    (h : shapelyBounds g = some b) :
    updGeomE env g = .ok (get_updated_bbox env b) := by
  simp [updGeomE, h]

theorem okBind {α β : Type} (a : α) (f : α → Except Unit β) :
    (Except.ok a >>= f) = f a := rfl

theorem pureBind {α β : Type} (a : α) (f : α → Except Unit β) :
    ((pure a : Except Unit α) >>= f) = f a := rfl

theorem featFold_eq (fs : List Json) :
    ∀ env : EnvelopeBBox,
      (∀ g ∈ fs.filterMap featGeom, (shapelyBounds g).isSome = true) →
      fs.foldlM featStep env =
        .ok (((fs.filterMap featGeom).filterMap shapelyBounds).foldl
          get_updated_bbox env) := by
  induction fs with
  | nil => intro env _; rfl
  | cons f rest ih =>
    intro env h
    rw [List.foldlM_cons]
    cases hg : featGeom f with
    | none =>
      have hrest : ∀ g ∈ rest.filterMap featGeom,
          (shapelyBounds g).isSome = true := by
        intro g hgm
        exact h g (by rw [List.filterMap_cons_none hg]; exact hgm)
      simp only [featStep, hg]
      rw [List.filterMap_cons_none hg, pureBind]
      exact ih env hrest
    | some g =>
      have hmem : g ∈ (f :: rest).filterMap featGeom := by
        rw [List.filterMap_cons_some hg]
        exact List.mem_cons_self _ _
      obtain ⟨b, hb⟩ := Option.isSome_iff_exists.mp (h g hmem)
      have hrest : ∀ g' ∈ rest.filterMap featGeom,
          (shapelyBounds g').isSome = true := by
        intro g' hg'
        refine h g' ?_
        rw [List.filterMap_cons_some hg]
        exact List.mem_cons_of_mem _ hg'
      simp only [featStep, hg, updGeomE_eq env g b hb]
      rw [List.filterMap_cons_some hg, List.filterMap_cons_some hb,
        List.foldl_cons, okBind]
      exact ih (get_updated_bbox env b) hrest

theorem envEntryStep_eq (entry : Json) (env : EnvelopeBBox)
    (h : ∀ g ∈ envEntryGeoms entry, (shapelyBounds g).isSome = true) :
    envEntryStep env entry =
      .ok (((envEntryGeoms entry).filterMap shapelyBounds).foldl
        get_updated_bbox env) := by
  unfold envEntryStep
  unfold envEntryGeoms at h ⊢
  by_cases hg : truthyO (jget entry "geometry") = true
  · obtain ⟨b, hb⟩ := Option.isSome_iff_exists.mp
      (h ((jget entry "geometry").getD .null) (by simp [hg]))
    simp only [hg, if_pos]
    rw [updGeomE_eq env _ b hb]
    simp [hb]
  · have hg' : truthyO (jget entry "geometry") = false := by
      revert hg; cases truthyO (jget entry "geometry") <;> simp
    simp only [hg', Bool.false_eq_true, if_false]
    by_cases hf : truthyO (jget entry "features") = true
    · simp only [hf, if_pos]
      exact featFold_eq _ env (by simpa [hg', hf] using h)
    · have hf' : truthyO (jget entry "features") = false := by
        revert hf; cases truthyO (jget entry "features") <;> simp
      simp only [hf', Bool.false_eq_true, if_false]
      rfl

theorem envFold_eq (l : List Json) :
    ∀ env : EnvelopeBBox,
      (∀ g ∈ l.flatMap envEntryGeoms, (shapelyBounds g).isSome = true) →
      l.foldlM envEntryStep env =
        .ok (((l.flatMap envEntryGeoms).filterMap shapelyBounds).foldl
          get_updated_bbox env) := by
  induction l with
  | nil => intro env _; rfl
  | cons e rest ih =>
    intro env h
    have hthis : ∀ g ∈ envEntryGeoms e, (shapelyBounds g).isSome = true := by
      intro g hg
      refine h g ?_
      rw [List.flatMap_cons]
      exact List.mem_append_left _ hg
    have hrest : ∀ g ∈ rest.flatMap envEntryGeoms,
        (shapelyBounds g).isSome = true := by
      intro g hg
      refine h g ?_
      rw [List.flatMap_cons]
      exact List.mem_append_right _ hg
    rw [List.foldlM_cons, envEntryStep_eq e env hthis, okBind, ih _ hrest]
    rw [List.flatMap_cons, List.filterMap_append, List.foldl_append]

theorem get_envelop_bbox_eq (l : List Json)
    (h : ∀ g ∈ contributingGeoms l, (shapelyBounds g).isSome = true) :
    get_envelop_bbox l =
      .ok ((contribBounds l).foldl get_updated_bbox emptyEnvelope) :=
  envFold_eq l emptyEnvelope h

theorem contribBounds_ne_nil (l : List Json)
    (h : ∀ g ∈ contributingGeoms l, (shapelyBounds g).isSome = true)
    (hne : contributingGeoms l ≠ []) : contribBounds l ≠ [] := by
  unfold contribBounds
  cases hc : contributingGeoms l with
  | nil => exact absurd hc hne
  | cons g rest =>
    obtain ⟨b, hb⟩ := Option.isSome_iff_exists.mp
      (h g (by rw [hc]; exact List.mem_cons_self _ _))
    rw [List.filterMap_cons_some hb]
    simp

/-- C4: whenever every contributing geometry of the entry sequence has
defined bounds, get_envelop_bbox succeeds and returns exactly the
element-wise min/max fold of those bounds starting from the undefined
envelope; the result covers every contributing bounds tuple, is the
all-None envelope when nothing contributes (entries with falsy or missing
geometries are skipped without failing), and has every coordinate defined
as soon as one geometry contributes. -/
theorem c4_envelope_fold (collections : List Json)
    (h : ∀ g ∈ contributingGeoms collections,
      (shapelyBounds g).isSome = true) :
    ∃ env, get_envelop_bbox collections = .ok env ∧
      env = (contribBounds collections).foldl get_updated_bbox emptyEnvelope ∧
      (∀ b ∈ contribBounds collections, coversBounds env b) ∧
      (contributingGeoms collections = [] → env = emptyEnvelope) ∧
      (contributingGeoms collections ≠ [] → envDefined env) := by
  refine ⟨_, get_envelop_bbox_eq collections h, rfl, ?_, ?_, ?_⟩
  · intro b hb; exact coversBounds_mem _ emptyEnvelope b hb
  · intro hnil
    unfold contribBounds
    rw [hnil]
    rfl
  · intro hne
    exact envDefined_foldl_ne_nil _ (contribBounds_ne_nil collections h hne) _

/-- Witness for C4 at a concrete feature collection with points (1,2) and
(3,1) and one geometry-less feature. -/
theorem c4_envelope_fold_witness :
    (∀ g ∈ contributingGeoms fxCollections,
      (shapelyBounds g).isSome = true) ∧
    (∃ env, get_envelop_bbox fxCollections = .ok env ∧
      env = (contribBounds fxCollections).foldl get_updated_bbox
        emptyEnvelope ∧
      (∀ b ∈ contribBounds fxCollections, coversBounds env b) ∧
      (contributingGeoms fxCollections = [] → env = emptyEnvelope) ∧
      (contributingGeoms fxCollections ≠ [] → envDefined env)) :=
  ⟨by decide, c4_envelope_fold fxCollections (by decide)⟩

/- ## Asset href rewriting (claims C6 and C10) -/

theorem dictSet_self (l : List (String × Json)) (k : String) (v : Json) :
    ∀ h : List.lookup k l = some v, dictSet l k v = l := by
  induction l with
  | nil => intro h; simp [List.lookup] at h
  | cons hd tl ih =>
    obtain ⟨k', v'⟩ := hd
    intro h
    by_cases hk : k' = k
    · subst hk
      rw [List.lookup_cons_self] at h
      cases h
      simp [dictSet]
    · have hk1 : (k == k') = false := by
        simp [Ne.symm hk]
      have hk2 : (k' == k) = false := by
        simp [hk]
      rw [List.lookup_cons, hk1] at h
      simp only [dictSet, hk2, Bool.false_eq_true, if_false]
      rw [ih h]

theorem jset_self (j : Json) (k : String) (v : Json)
    (h : jget j k = some v) : jset j k v = j := by
  cases j with
  | obj kvs => simp only [jset]; rw [dictSet_self kvs k v h]
  | _ => simp [jget] at h

theorem rewriteAsset_eq (uj : String → String → String) (r : String)
    (a : Json) (hs : String) (hh : jget a "href" = some (.str hs)) :
    rewriteAsset uj r a = .ok (claimedAssetFix uj r a) := by
  simp only [rewriteAsset, claimedAssetFix, hh]
  split <;> rfl

theorem mapSelf {α : Type} (l : List α) (f : α → α)
    (h : ∀ a ∈ l, f a = a) : l.map f = l := by
  induction l with
  | nil => rfl
  | cons a t ih =>
    rw [List.map_cons, h a (List.mem_cons_self _ _),
      ih (fun x hx => h x (List.mem_cons_of_mem _ hx))]

theorem mapM_assets_eq (uj : String → String → String) (r : String)
    (assets : List (String × Json))
    (h : ∀ kv ∈ assets, ∃ hs, jget kv.2 "href" = some (.str hs)) :
    (assets.mapM (fun kv =>
        rewriteAsset uj r kv.2 >>= fun a => pure (kv.1, a)) :
      Except Unit (List (String × Json))) =
      .ok (assets.map (fun kv => (kv.1, claimedAssetFix uj r kv.2))) := by
  induction assets with
  | nil => rfl
  | cons kv rest ih =>
    obtain ⟨hs, hh⟩ := h kv (List.mem_cons_self _ _)
    rw [List.mapM_cons, rewriteAsset_eq uj r kv.2 hs hh,
      ih (fun kv' hkv' => h kv' (List.mem_cons_of_mem _ hkv'))]
    rfl

theorem assetsOk_href (item : Json) (assets : List (String × Json))
    (h : assetsOk item = true) (ha : jget item "assets" = some (.obj assets)) :
    ∀ kv ∈ assets, ∃ hs, jget kv.2 "href" = some (.str hs) := by
  unfold assetsOk at h
  rw [ha] at h
  rw [List.all_eq_true] at h
  intro kv hkv
  have := h kv hkv
  revert this
  cases hh : jget kv.2 "href" with
  | none => simp
  | some v => cases v <;> simp_all

theorem claimedAssetFix_str (uj : String → String → String) (r : String)
    (a : Json) (hs : String) (hh : jget a "href" = some (.str hs)) :
    claimedAssetFix uj r a =
      if startsHttp hs then a else jset a "href" (.str (uj r hs)) := by
  unfold claimedAssetFix
  rw [hh]

theorem claimedAssetRewrite_none_assets (uj : String → String → String)
    (r : String) (item : Json) (ha : jget item "assets" = none) :
    claimedAssetRewrite uj (some r) item = item := by
  unfold claimedAssetRewrite
  rw [ha]

theorem claimedAssetRewrite_obj (uj : String → String → String) (r : String)
    (item : Json) (assets : List (String × Json))
    (ha : jget item "assets" = some (.obj assets)) :
    claimedAssetRewrite uj (some r) item =
      jset item "assets"
        (.obj (assets.map (fun kv => (kv.1, claimedAssetFix uj r kv.2)))) := by
  unfold claimedAssetRewrite
  rw [ha]

theorem rewriteAssets_falsy (uj : String → String → String)
    (ref : Option String) (code : Json) (hrt : truthyS ref = false) :
    rewriteAssets uj ref code = pure code := by
  unfold rewriteAssets
  rw [hrt]
  rfl

theorem rewriteAssets_none_assets (uj : String → String → String)
    (ref : Option String) (code : Json) (hrt : truthyS ref = true)
    (ha : jget code "assets" = none) :
    rewriteAssets uj ref code = pure code := by
  unfold rewriteAssets
  rw [hrt, ha]
  rfl

theorem rewriteAssets_obj (uj : String → String → String)
    (ref : Option String) (code : Json) (assets : List (String × Json))
    (hrt : truthyS ref = true)
    (ha : jget code "assets" = some (.obj assets)) :
    rewriteAssets uj ref code =
      ((assets.mapM (fun kv =>
          rewriteAsset uj (ref.getD "") kv.2 >>= fun a => pure (kv.1, a)) :
        Except Unit (List (String × Json))) >>= fun assets' =>
        pure (jset code "assets" (.obj assets'))) := by
  unfold rewriteAssets
  rw [hrt, ha]
  rfl

/-- C6: with a non-null reference URL, every asset href is observably
replaced by its URL resolution (uj) against the reference unless it already
matches http(s)://, and with no reference URL nothing is rewritten — the
source's outcome equals the claim's description for every resolver that is
the identity on an empty base, as urljoin is. -/
theorem c6_asset_href_resolution (uj : String → String → String)
    (huj : ∀ s, uj "" s = s) (ref : Option String) (item : Json)
    (h : assetsOk item = true) :
    rewriteAssets uj ref item = .ok (claimedAssetRewrite uj ref item) := by
  cases ref with
  | none => rfl
  | some r =>
    by_cases hr : r = ""
    · subst hr
      rw [rewriteAssets_falsy uj (some "") item rfl]
      cases ha : jget item "assets" with
      | none => rw [claimedAssetRewrite_none_assets uj "" item ha]; rfl
      | some av =>
        cases av with
        | obj assets =>
          have hfix : ∀ kv ∈ assets,
              (fun kv : String × Json =>
                (kv.1, claimedAssetFix uj "" kv.2)) kv = kv := by
            intro kv hkv
            obtain ⟨hs, hh⟩ := assetsOk_href item assets h ha kv hkv
            show ((kv.1, claimedAssetFix uj "" kv.2) : String × Json) = kv
            rw [claimedAssetFix_str uj "" kv.2 hs hh]
            by_cases hsh : startsHttp hs = true
            · rw [if_pos hsh]
            · have hsh' : startsHttp hs = false := by
                revert hsh; cases startsHttp hs <;> simp
              rw [hsh']
              simp only [Bool.false_eq_true, if_false]
              rw [huj hs, jset_self kv.2 "href" (.str hs) hh]
          rw [claimedAssetRewrite_obj uj "" item assets ha]
          rw [mapSelf assets
            (fun kv : String × Json => (kv.1, claimedAssetFix uj "" kv.2))
            hfix]
          rw [jset_self item "assets" (.obj assets) ha]
          rfl
        | null => simp [assetsOk, ha] at h
        | bool bv => simp [assetsOk, ha] at h
        | num q => simp [assetsOk, ha] at h
        | str sv => simp [assetsOk, ha] at h
        | arr xs => simp [assetsOk, ha] at h
    · have hrt : truthyS (some r) = true := by simp [truthyS, hr]
      cases ha : jget item "assets" with
      | none =>
        rw [rewriteAssets_none_assets uj (some r) item hrt ha,
          claimedAssetRewrite_none_assets uj r item ha]
        rfl
      | some av =>
        cases av with
        | obj assets =>
          have h' := assetsOk_href item assets h ha
          rw [rewriteAssets_obj uj (some r) item assets hrt ha]
          rw [show (some r).getD "" = r from rfl]
          rw [mapM_assets_eq uj r assets h']
          rw [claimedAssetRewrite_obj uj r item assets ha]
          rfl
        | null => simp [assetsOk, ha] at h
        | bool bv => simp [assetsOk, ha] at h
        | num q => simp [assetsOk, ha] at h
        | str sv => simp [assetsOk, ha] at h
        | arr xs => simp [assetsOk, ha] at h

/-- Witness for C6 at a concrete item with one relative and one absolute
asset href. -/
theorem c6_asset_href_resolution_witness :
    (∀ s, ujConcat "" s = s) ∧ assetsOk fxAssetsItem = true ∧
    rewriteAssets ujConcat (some "https://x/y/") fxAssetsItem =
      .ok (claimedAssetRewrite ujConcat (some "https://x/y/") fxAssetsItem) :=
  ⟨fun s => rfl, rfl,
    c6_asset_href_resolution ujConcat (fun s => rfl)
      (some "https://x/y/") fxAssetsItem rfl⟩

/-- C10 counterexample: an item whose reference URL is non-null but empty
and whose asset lacks href is passed through unchanged instead of raising a
lookup error, because the source tests the reference for truthiness, not
for null. -/
theorem c10_counterexample :
    someAssetMissingHref fxNoHrefItem = true ∧
    rewriteAssets ujConcat (some "") fxNoHrefItem = .ok fxNoHrefItem :=
  ⟨rfl, rfl⟩

theorem rewriteAsset_error_of_not_str (uj : String → String → String)
    (r : String) (a : Json)
    (hstr : ¬∃ hs, jget a "href" = some (.str hs)) :
    rewriteAsset uj r a = .error () := by
  unfold rewriteAsset
  cases hh : jget a "href" with
  | none => rfl
  | some v =>
    cases v with
    | str hs => exact absurd ⟨hs, hh⟩ hstr
    | null => rfl
    | bool bv => rfl
    | num q => rfl
    | arr xs => rfl
    | obj kvs => rfl

theorem mapM_assets_error (uj : String → String → String) (r : String)
    (assets : List (String × Json))
    (h : ∃ kv ∈ assets, (jget kv.2 "href").isNone = true) :
    (assets.mapM (fun kv =>
        rewriteAsset uj r kv.2 >>= fun a => pure (kv.1, a)) :
      Except Unit (List (String × Json))) = .error () := by
  induction assets with
  | nil => obtain ⟨kv, hkv, _⟩ := h; cases hkv
  | cons kv rest ih =>
    rw [List.mapM_cons]
    obtain ⟨kv', hkv', hmiss⟩ := h
    rcases List.mem_cons.mp hkv' with rfl | hmem
    · have hn : jget kv'.2 "href" = none := by
        revert hmiss; cases jget kv'.2 "href" <;> simp
      rw [rewriteAsset_error_of_not_str uj r kv'.2
        (by rintro ⟨hs, hh⟩; rw [hn] at hh; cases hh)]
      rfl
    · by_cases hstr : ∃ hs, jget kv.2 "href" = some (Json.str hs)
      · obtain ⟨hs, hh⟩ := hstr
        rw [rewriteAsset_eq uj r kv.2 hs hh, ih ⟨kv', hmem, hmiss⟩]
        rfl
      · rw [rewriteAsset_error_of_not_str uj r kv.2 hstr]
        rfl

theorem rewriteAssets_error (uj : String → String → String) (r : String)
    (item : Json) (hr : r ≠ "")
    (h : someAssetMissingHref item = true) :
    rewriteAssets uj (some r) item = .error () := by
  have hrt : truthyS (some r) = true := by simp [truthyS, hr]
  cases ha : jget item "assets" with
  | none => simp [someAssetMissingHref, ha] at h
  | some av =>
    cases av with
    | obj assets =>
      simp only [someAssetMissingHref] at h
      rw [ha] at h
      rw [List.any_eq_true] at h
      rw [rewriteAssets_obj uj (some r) item assets hrt ha]
      rw [show (some r).getD "" = r from rfl]
      rw [mapM_assets_error uj r assets h]
      rfl
    | null => simp [someAssetMissingHref, ha] at h
    | bool bv => simp [someAssetMissingHref, ha] at h
    | num q => simp [someAssetMissingHref, ha] at h
    | str sv => simp [someAssetMissingHref, ha] at h
    | arr xs => simp [someAssetMissingHref, ha] at h

theorem foldlM_error_of_mem {α σ : Type} (f : σ → α → Except Unit σ)
    (l : List α) (x : α) (hx : x ∈ l)
    (hf : ∀ s, f s x = .error ()) :
    ∀ init, l.foldlM f init = .error () := by
  induction l with
  | nil => cases hx
  | cons a rest ih =>
    intro init
    rw [List.foldlM_cons]
    rcases List.mem_cons.mp hx with rfl | hmem
    · rw [hf init]; rfl
    · cases hs : f init a with
      | error e => cases e; rfl
      | ok s' => rw [okBind]; exact ih hmem s'

theorem stacItemStep_error (cfg : Cfg) (dir : String) (it : StacItem)
    (r : String) (href : it.ref = some r) (hr : r ≠ "")
    (h : someAssetMissingHref it.code = true) :
    ∀ ls, stacItemStep cfg dir ls it = .error () := by
  intro ls
  unfold stacItemStep
  cases hid : jget it.code "id" with
  | none => rfl
  | some v =>
    cases v with
    | str s =>
      rw [href, rewriteAssets_error cfg.uj r it.code hr h]
      rfl
    | null => rfl
    | bool bv => rfl
    | num q => rfl
    | arr xs => rfl
    | obj kvs => rfl

theorem processStac_error (cfg : Cfg) (st : RunState) (b : BBlock)
    (items : List StacItem) (it : StacItem) (hit : it ∈ items)
    (r : String) (href : it.ref = some r) (hr : r ≠ "")
    (h : someAssetMissingHref it.code = true) :
    processStac cfg st b items = .error () := by
  unfold processStac
  rw [foldlM_error_of_mem
    (stacItemStep cfg (st.stacDir ++ "/" ++ b.itemIdentifier)) items it hit
    (stacItemStep_error cfg (st.stacDir ++ "/" ++ b.itemIdentifier)
      it r href hr h)]
  rfl

/-- C10 amended: for every STAC item carrying a truthy (non-empty,
non-null) reference URL, an asset lacking an href key makes the
asset-rewriting step raise a lookup error, and processing of the whole
building block aborts rather than skipping that asset. -/
theorem c10_missing_href_aborts (uj : String → String → String) (r : String)
    (item : Json) (hr : r ≠ "") (h : someAssetMissingHref item = true) :
    rewriteAssets uj (some r) item = .error () ∧
    (∀ (cfg : Cfg) (st : RunState) (b : BBlock) (it : StacItem),
      it ∈ (classifyBBlock b.examples).2 → it.ref = some r →
      it.code = item → processBBlock cfg st b = .error ()) := by
  refine ⟨rewriteAssets_error uj r item hr h, ?_⟩
  intro cfg st b it hmem href hcode
  have hne : (classifyBBlock b.examples).2.isEmpty = false := by
    cases hcl : (classifyBBlock b.examples).2 with
    | nil => rw [hcl] at hmem; cases hmem
    | cons a l => rfl
  unfold processBBlock
  cases hG : (if (classifyBBlock b.examples).1.isEmpty then pure st
      else processGeojson cfg st b (classifyBBlock b.examples).1 :
        Except Unit RunState) with
  | error e => cases e; rfl
  | ok st1 =>
    rw [okBind, hne]
    exact processStac_error cfg st1 b _ it hmem r href hr (hcode ▸ h)

/-- Witness for the amended C10 at a concrete item and building block. -/
theorem c10_missing_href_aborts_witness :
    ("https://x/" ≠ "") ∧ someAssetMissingHref fxNoHrefItem = true ∧
    rewriteAssets ujConcat (some "https://x/") fxNoHrefItem = .error () ∧
    processBBlock cfg0 rs0 fxNoHrefBB = .error () := by
  have h := c10_missing_href_aborts ujConcat "https://x/" fxNoHrefItem
    (by decide) rfl
  refine ⟨by decide, rfl, h.1, ?_⟩
  refine h.2 cfg0 rs0 fxNoHrefBB fxNoHrefStacItem ?_ rfl rfl
  rw [show (classifyBBlock fxNoHrefBB.examples).2 = [fxNoHrefStacItem]
    from rfl]
  exact List.mem_cons_self _ _

/- ## Configuration merge (claim C7) -/

theorem lookup_dictSet_self (l : List (String × Json)) (k : String)
    (v : Json) : List.lookup k (dictSet l k v) = some v := by
  induction l with
  | nil => simp [dictSet, List.lookup]
  | cons hd tl ih =>
    obtain ⟨k1, v1⟩ := hd
    by_cases hk : k1 = k
    · subst hk
      simp [dictSet, List.lookup]
    · have hk1 : (k1 == k) = false := by simp [hk]
      have hk2 : (k == k1) = false := by simp [Ne.symm hk]
      simp only [dictSet, hk1, Bool.false_eq_true, if_false]
      simp [List.lookup, hk2, ih]

theorem lookup_dictSet_ne (l : List (String × Json)) (k : String) (v : Json)
    (k' : String) (hne : k' ≠ k) :
    List.lookup k' (dictSet l k v) = List.lookup k' l := by
  have hne' : (k' == k) = false := by simp [hne]
  induction l with
  | nil => simp [dictSet, List.lookup, hne']
  | cons hd tl ih =>
    obtain ⟨k1, v1⟩ := hd
    by_cases hk : k1 = k
    · subst hk
      have hk2 : (k' == k1) = false := by simp [hne]
      simp [dictSet, List.lookup, hk2]
    · have hk1 : (k1 == k) = false := by simp [hk]
      simp only [dictSet, hk1, Bool.false_eq_true, if_false]
      simp [List.lookup, ih]

theorem lookup_append (l1 l2 : List (String × Json)) (k : String) :
    List.lookup k (l1 ++ l2) =
      match List.lookup k l1 with
      | some v => some v
      | none => List.lookup k l2 := by
  induction l1 with
  | nil => rfl
  | cons hd tl ih =>
    obtain ⟨k1, v1⟩ := hd
    rw [List.cons_append]
    by_cases hk : k = k1
    · subst hk; simp [List.lookup]
    · have hk' : (k == k1) = false := by simp [hk]
      simp [List.lookup, hk', ih]

theorem foldl_dictSet_lookup (pairs : List (String × Json)) :
    ∀ (acc : List (String × Json)) (k : String),
      List.lookup k (pairs.foldl (fun a kv => dictSet a kv.1 kv.2) acc) =
        match List.lookup k pairs.reverse with
        | some v => some v
        | none => List.lookup k acc := by
  induction pairs with
  | nil => intro acc k; rfl
  | cons kv rest ih =>
    intro acc k
    rw [List.foldl_cons, ih (dictSet acc kv.1 kv.2) k, List.reverse_cons,
      lookup_append]
    cases hl : List.lookup k rest.reverse with
    | some v => rfl
    | none =>
      by_cases hk : k = kv.1
      · subst hk
        rw [lookup_dictSet_self]
        simp [List.lookup]
      · have hk' : (k == kv.1) = false := by simp [hk]
        rw [lookup_dictSet_ne acc kv.1 kv.2 k hk]
        simp [List.lookup, hk']

theorem lookup_none_of_not_mem (l : List (String × Json)) (k : String)
    (h : k ∉ l.map Prod.fst) : List.lookup k l = none := by
  induction l with
  | nil => rfl
  | cons hd tl ih =>
    obtain ⟨k1, v1⟩ := hd
    rw [List.map_cons] at h
    have h1 : k ≠ k1 := fun he => h (by rw [he]; exact List.mem_cons_self _ _)
    have h2 : k ∉ tl.map Prod.fst := fun hm => h (List.mem_cons_of_mem _ hm)
    have hk : (k == k1) = false := by simp [h1]
    simp [List.lookup, hk, ih h2]

theorem lookup_filter (l : List (String × Json)) (p : String × Json → Bool)
    (hnd : (l.map Prod.fst).Nodup) (k : String) :
    List.lookup k (l.filter p) =
      match List.lookup k l with
      | some v => if p (k, v) then some v else none
      | none => none := by
  induction l with
  | nil => rfl
  | cons hd tl ih =>
    obtain ⟨k1, v1⟩ := hd
    rw [List.map_cons, List.nodup_cons] at hnd
    by_cases hk : k = k1
    · subst hk
      have htl : List.lookup k tl = none := lookup_none_of_not_mem tl k hnd.1
      cases hp : p (k, v1) with
      | true =>
        rw [List.filter_cons_of_pos hp]
        simp [List.lookup, hp]
      | false =>
        rw [List.filter_cons_of_neg (by simp [hp])]
        rw [ih hnd.2, htl]
        simp [List.lookup, hp]
    · have hk' : (k == k1) = false := by simp [hk]
      have hstep : List.lookup k ((k1, v1) :: tl) = List.lookup k tl := by
        simp [List.lookup, hk']
      rw [hstep]
      cases hp : p (k1, v1) with
      | true =>
        rw [List.filter_cons_of_pos hp]
        rw [show List.lookup k ((k1, v1) :: tl.filter p) =
          List.lookup k (tl.filter p) by simp [List.lookup, hk']]
        exact ih hnd.2
      | false =>
        rw [List.filter_cons_of_neg (by simp [hp])]
        exact ih hnd.2

theorem foldl_nested_flat (rs : List (String × List (String × Json))) :
    ∀ acc : List (String × Json),
      rs.foldl (fun acc ur =>
        ur.2.foldl (fun a kv => dictSet a kv.1 kv.2) acc) acc =
      (rs.flatMap (·.2)).foldl (fun a kv => dictSet a kv.1 kv.2) acc := by
  induction rs with
  | nil => intro acc; rfl
  | cons r t ih =>
    intro acc
    rw [List.foldl_cons, List.flatMap_cons, List.foldl_append, ih]

theorem flatMap_tagged (rs : List (String × List (String × Json))) :
    ((rs.map (fun ur => (ur.1, tagResources ur.1 ur.2))).flatMap (·.2)) =
      rs.flatMap (fun ur => tagResources ur.1 ur.2) := by
  induction rs with
  | nil => rfl
  | cons r t ih =>
    rw [List.map_cons, List.flatMap_cons, List.flatMap_cons, ih]

theorem map_fst_tagged (rs : List (String × List (String × Json))) :
    (rs.map (fun ur => (ur.1, tagResources ur.1 ur.2))).map Prod.fst =
      rs.map Prod.fst := by
  induction rs with
  | nil => rfl
  | cons r t ih => rw [List.map_cons, List.map_cons, ih]; rfl

/-- C7: the configuration merge keeps exactly the existing entries whose
recorded bblocks_register tag is not among the processed registers (the
keys of the newly built payload), leaves them unchanged, and overlays every
newly built descriptor, each tagged with its source register URL; the
resulting mapping is described pointwise for every key. -/
theorem c7_merge_resources (existing : List (String × Json))
    (newRes : List (String × List (String × Json)))
    (hnd : (existing.map Prod.fst).Nodup) (k : String) :
    List.lookup k (mergeRun existing newRes) =
      match List.lookup k
          ((newRes.flatMap (fun ur => tagResources ur.1 ur.2)).reverse) with
      | some v => some v
      | none =>
        match List.lookup k existing with
        | some v =>
          if tagMatches v (newRes.map Prod.fst) then none else some v
        | none => none := by
  unfold mergeRun mergeResources
  rw [foldl_nested_flat, flatMap_tagged, map_fst_tagged,
    foldl_dictSet_lookup]
  cases hl : List.lookup k
      ((newRes.flatMap (fun ur => tagResources ur.1 ur.2)).reverse) with
  | some v => rfl
  | none =>
    rw [lookup_filter existing _ hnd k]
    cases he : List.lookup k existing with
    | some v =>
      cases ht : tagMatches v (newRes.map Prod.fst) with
      | true => simp [ht]
      | false => simp [ht]
    | none => rfl

/-- Witness for C7 at a concrete three-entry configuration and one
processed register. -/
theorem c7_merge_resources_witness :
    (fxExisting.map Prod.fst).Nodup ∧
    List.lookup "old1" (mergeRun fxExisting fxNewRes) =
      (match List.lookup "old1"
          ((fxNewRes.flatMap (fun ur => tagResources ur.1 ur.2)).reverse) with
      | some v => some v
      | none =>
        match List.lookup "old1" fxExisting with
        | some v =>
          if tagMatches v (fxNewRes.map Prod.fst) then none else some v
        | none => none) :=
  ⟨by decide, c7_merge_resources fxExisting fxNewRes (by decide) "old1"⟩

/- ## Resource-key overwrite (claim C8) -/

theorem processGeojson_ok (cfg : Cfg) (st : RunState) (b : BBlock)
    (fcs : List (String × Json)) (st1 : RunState)
    (h : processGeojson cfg st b fcs = .ok st1) :
    ∃ bbox, get_envelop_bbox (fcs.map Prod.snd) = .ok bbox ∧
      st1 = { st with
        outputResources := dictSet st.outputResources b.itemIdentifier
          (geoResource cfg b bbox fcs),
        writes := st.writes ++ geoWrites cfg b fcs } := by
  unfold processGeojson at h
  cases hb : get_envelop_bbox (fcs.map Prod.snd) with
  | error e =>
    rw [hb] at h
    cases e
    exact Except.noConfusion
      (h : (Except.error () : Except Unit RunState) = .ok st1)
  | ok bbox =>
    rw [hb, okBind] at h
    exact ⟨bbox, rfl, (Except.ok.inj h).symm⟩

theorem processStac_ok (cfg : Cfg) (st : RunState) (b : BBlock)
    (items : List StacItem) (st2 : RunState)
    (h : processStac cfg st b items = .ok st2) :
    ∃ loopSt,
      items.foldlM (stacItemStep cfg (st.stacDir ++ "/" ++ b.itemIdentifier))
        { addedItems := [], links := [], extensions := [], writes := [] } =
        .ok loopSt ∧
      st2 = { stacDir := st.stacDir ++ "/" ++ b.itemIdentifier,
              outputResources := dictSet st.outputResources b.itemIdentifier
                (stacResource cfg b (st.stacDir ++ "/" ++ b.itemIdentifier)),
              writes := st.writes ++ loopSt.writes ++
                [(st.stacDir ++ "/" ++ b.itemIdentifier ++ "/catalog.json",
                  stacCatalog b loopSt.extensions loopSt.links)] } := by
  unfold processStac at h
  cases hl : items.foldlM
      (stacItemStep cfg (st.stacDir ++ "/" ++ b.itemIdentifier))
      { addedItems := [], links := [], extensions := [], writes := [] } with
  | error e =>
    rw [hl] at h
    cases e
    exact Except.noConfusion
      (h : (Except.error () : Except Unit RunState) = .ok st2)
  | ok loopSt =>
    rw [hl, okBind] at h
    exact ⟨loopSt, rfl, (Except.ok.inj h).symm⟩

theorem jget_attachLd (kvs : List (String × Json)) (ld : Option Json)
    (fb : Option String) (k : String) (hk : k ≠ "linked-data") :
    jget (attachLd (.obj kvs) ld fb) k = jget (.obj kvs) k := by
  unfold attachLd
  split
  · show jget (jset (.obj kvs) "linked-data" _) k = _
    simp only [jset, jget]
    exact lookup_dictSet_ne kvs "linked-data" _ k hk
  · rfl

theorem stacResource_type (cfg : Cfg) (b : BBlock) (dir : String) :
    jget (stacResource cfg b dir) "type" = some (.str "stac-collection") := by
  unfold stacResource
  rw [jget_attachLd _ _ _ "type" (by decide)]
  rfl

theorem countKey_cons (k1 : String) (v1 : Json) (tl : List (String × Json))
    (k : String) :
    countKey ((k1, v1) :: tl) k =
      if k1 == k then countKey tl k + 1 else countKey tl k := by
  unfold countKey
  cases hk : (k1 == k) with
  | true => simp [List.filter_cons, hk]
  | false => simp [List.filter_cons, hk]

theorem countKey_dictSet (l : List (String × Json)) (k : String) (v : Json)
    (h : countKey l k ≤ 1) : countKey (dictSet l k v) k = 1 := by
  induction l with
  | nil => simp [dictSet, countKey, List.filter]
  | cons hd tl ih =>
    obtain ⟨k1, v1⟩ := hd
    by_cases hk : k1 = k
    · subst hk
      rw [show dictSet ((k1, v1) :: tl) k1 v = (k1, v) :: tl by
        simp [dictSet]]
      rw [countKey_cons] at h ⊢
      simp only [beq_self_eq_true, if_pos] at h ⊢
      omega
    · have hk' : (k1 == k) = false := by simp [hk]
      rw [show dictSet ((k1, v1) :: tl) k v = (k1, v1) :: dictSet tl k v by
        simp [dictSet, hk']]
      rw [countKey_cons] at h ⊢
      rw [hk'] at h ⊢
      simp only [Bool.false_eq_true, if_false] at h ⊢
      exact ih h

/-- C8: a building block whose classification yields both feature-collection
buckets and STAC items ends the run with exactly one descriptor under its
itemIdentifier, and that descriptor is the stac-collection one — the STAC
registration overwrites the earlier GeoJSON registration under the same
key. -/
theorem c8_stac_overwrites_geojson (cfg : Cfg) (st : RunState) (b : BBlock)
    (st' : RunState)
    (hf : (classifyBBlock b.examples).1.isEmpty = false)
    (hs : (classifyBBlock b.examples).2.isEmpty = false)
    (h : processBBlock cfg st b = .ok st')
    (hcnt : countKey st.outputResources b.itemIdentifier ≤ 1) :
    countKey st'.outputResources b.itemIdentifier = 1 ∧
    ∃ r, List.lookup b.itemIdentifier st'.outputResources = some r ∧
      jget r "type" = some (.str "stac-collection") := by
  unfold processBBlock at h
  rw [hf] at h
  simp only [Bool.false_eq_true, if_false] at h
  cases hG : processGeojson cfg st b (classifyBBlock b.examples).1 with
  | error e =>
    rw [hG] at h
    cases e
    exact Except.noConfusion
      (h : (Except.error () : Except Unit RunState) = .ok st')
  | ok st1 =>
    rw [hG, okBind, hs] at h
    simp only [Bool.false_eq_true, if_false] at h
    obtain ⟨bbox, hb, hst1⟩ := processGeojson_ok cfg st b _ st1 hG
    obtain ⟨loopSt, hl, hst2⟩ := processStac_ok cfg st1 b _ st' h
    have hores1 : st1.outputResources =
        dictSet st.outputResources b.itemIdentifier
          (geoResource cfg b bbox (classifyBBlock b.examples).1) := by
      rw [hst1]
    have hores2 : st'.outputResources =
        dictSet st1.outputResources b.itemIdentifier
          (stacResource cfg b (st1.stacDir ++ "/" ++ b.itemIdentifier)) := by
      rw [hst2]
    rw [hores2, hores1]
    refine ⟨?_, _, lookup_dictSet_self _ _ _, stacResource_type cfg b _⟩
    exact countKey_dictSet _ _ _
      (le_of_eq (countKey_dictSet _ _ _ hcnt))

/-- Witness for C8 at a concrete building block yielding one loose feature
and one STAC item. -/
theorem c8_stac_overwrites_geojson_witness :
    ∃ st', processBBlock cfg0 rs0 fxBoth = .ok st' ∧
      (countKey st'.outputResources "X" = 1 ∧
       ∃ r, List.lookup "X" st'.outputResources = some r ∧
         jget r "type" = some (.str "stac-collection")) := by
  refine ⟨_, rfl, ?_⟩
  exact c8_stac_overwrites_geojson cfg0 rs0 fxBoth _ rfl rfl rfl (by decide)

/- ## GeoJSON file paths (claim C9) -/

theorem strEq_of_data (a b : String) (h : a.data = b.data) : a = b := by
  cases a; cases b; cases h; rfl

theorem dataAppend (a b : String) : (a ++ b).data = a.data ++ b.data := rfl

theorem data_ne_nil (s : String) (h : s ≠ "") : s.data ≠ [] := by
  intro hd
  exact h (strEq_of_data s "" hd)

theorem takeWhile_all {α : Type} (p : α → Bool) (l : List α)
    (h : ∀ c ∈ l, p c = true) : l.takeWhile p = l := by
  induction l with
  | nil => rfl
  | cons c t ih =>
    rw [List.takeWhile_cons, h c (List.mem_cons_self _ _)]
    simp only [if_pos]
    rw [ih (fun c hc => h c (List.mem_cons_of_mem _ hc))]

theorem takeWhile_append_stop {α : Type} (p : α → Bool) (l1 : List α)
    (x : α) (l2 : List α) (h1 : ∀ c ∈ l1, p c = true) (hx : p x = false) :
    (l1 ++ x :: l2).takeWhile p = l1 := by
  induction l1 with
  | nil =>
    rw [List.nil_append, List.takeWhile_cons, hx]
    rfl
  | cons c t ih =>
    rw [List.cons_append, List.takeWhile_cons, h1 c (List.mem_cons_self _ _)]
    simp only [if_pos]
    rw [ih (fun c hc => h1 c (List.mem_cons_of_mem _ hc))]

theorem splitLastSlash_append (d n : List Char) (hn : '/' ∉ n) :
    splitLastSlash (d ++ '/' :: n) = (d ++ ['/'], n) := by
  unfold splitLastSlash
  have hrev : (d ++ '/' :: n).reverse = n.reverse ++ '/' :: d.reverse := by
    simp [List.reverse_append]
  have htw : ((d ++ '/' :: n).reverse.takeWhile (· ≠ '/')) = n.reverse := by
    rw [hrev]
    exact takeWhile_append_stop _ n.reverse '/' d.reverse
      (fun c hc => by
        rw [List.mem_reverse] at hc
        exact decide_eq_true (fun he => hn (he ▸ hc)))
      (by simp)
  rw [htw, List.reverse_reverse, List.length_reverse]
  have hlen : (d ++ '/' :: n).length - n.length = d.length + 1 := by
    simp only [List.length_append, List.length_cons]
    omega
  rw [hlen]
  have hsplit : d ++ '/' :: n = (d ++ ['/']) ++ n := by simp
  rw [hsplit, show d.length + 1 = (d ++ ['/']).length by simp]
  rw [List.take_left]

theorem nameSplitExt_no_dot (n : List Char) (h : '.' ∉ n) :
    nameSplitExt n = (n, []) := by
  unfold nameSplitExt
  rw [takeWhile_all _ n.reverse (fun c hc => by
    rw [List.mem_reverse] at hc
    exact decide_eq_true (fun he => h (he ▸ hc)))]
  rw [List.length_reverse]
  simp

theorem nameSplitExt_ext (stem ext : List Char) (hs : stem ≠ [])
    (hd : '.' ∉ ext) (he : ext ≠ []) :
    nameSplitExt (stem ++ '.' :: ext) = (stem, '.' :: ext) := by
  unfold nameSplitExt
  have htw : ((stem ++ '.' :: ext).reverse.takeWhile (· ≠ '.')) =
      ext.reverse := by
    rw [show (stem ++ '.' :: ext).reverse = ext.reverse ++ '.' :: stem.reverse
      by simp [List.reverse_append]]
    exact takeWhile_append_stop _ ext.reverse '.' stem.reverse
      (fun c hc => by
        rw [List.mem_reverse] at hc
        exact decide_eq_true (fun heq => hd (heq ▸ hc)))
      (by simp)
  rw [htw, List.length_reverse]
  have hstem : 0 < stem.length := List.length_pos.mpr hs
  have hext : 0 < ext.length := List.length_pos.mpr he
  have hlen : (stem ++ '.' :: ext).length = stem.length + 1 + ext.length := by
    simp [List.length_append]
    omega
  rw [if_neg (by omega)]
  have hi : (stem ++ '.' :: ext).length - ext.length - 1 = stem.length := by
    omega
  rw [hi]
  rw [if_pos ⟨hstem, by simp [List.isEmpty_iff, he]⟩]
  rw [List.take_left, List.drop_left]

theorem joined_data (outDir id : String) :
    (outDir ++ "/" ++ id).data = outDir.data ++ '/' :: id.data := by
  rw [dataAppend, dataAppend]
  simp [List.append_assoc]

theorem pyWithSuffix_no_dot (outDir id : String) (hdot : '.' ∉ id.data)
    (hsl : '/' ∉ id.data) :
    pyWithSuffix (outDir ++ "/" ++ id) ".geojson" =
      outDir ++ "/" ++ id ++ ".geojson" := by
  apply strEq_of_data
  show (splitLastSlash (outDir ++ "/" ++ id).data).1 ++
      (nameSplitExt (splitLastSlash (outDir ++ "/" ++ id).data).2).1 ++
      ".geojson".data = _
  rw [joined_data, splitLastSlash_append outDir.data id.data hsl]
  show (outDir.data ++ ['/']) ++ (nameSplitExt id.data).1 ++
      ".geojson".data = _
  rw [nameSplitExt_no_dot id.data hdot]
  show (outDir.data ++ ['/']) ++ id.data ++ ".geojson".data = _
  rw [dataAppend, joined_data]
  simp [List.append_assoc]

theorem geojsonName_data (outDir id : String) :
    (outDir ++ "/" ++ id ++ ".geojson").data =
      outDir.data ++ '/' :: (id.data ++ '.' :: "geojson".data) := by
  rw [dataAppend, joined_data]
  simp [List.append_assoc]

theorem splitLastSlash_geojsonName (outDir id : String)
    (hsl : '/' ∉ id.data) :
    splitLastSlash (outDir ++ "/" ++ id ++ ".geojson").data =
      (outDir.data ++ ['/'], id.data ++ '.' :: "geojson".data) := by
  rw [geojsonName_data]
  exact splitLastSlash_append outDir.data _ (by
    intro hm
    rw [List.mem_append] at hm
    rcases hm with hm | hm
    · exact hsl hm
    · revert hm; decide)

theorem nameSplitExt_geojsonName (id : String) (hdot : '.' ∉ id.data)
    (hne : id ≠ "") :
    nameSplitExt (id.data ++ '.' :: "geojson".data) =
      (id.data, '.' :: "geojson".data) :=
  nameSplitExt_ext id.data "geojson".data (data_ne_nil id hne)
    (by decide) (by decide)

theorem pyStem_geojsonName (outDir id : String) (hdot : '.' ∉ id.data)
    (hsl : '/' ∉ id.data) (hne : id ≠ "") :
    pyStem (outDir ++ "/" ++ id ++ ".geojson") = id := by
  apply strEq_of_data
  show (nameSplitExt
      (splitLastSlash (outDir ++ "/" ++ id ++ ".geojson").data).2).1 = _
  rw [splitLastSlash_geojsonName outDir id hsl]
  show (nameSplitExt (id.data ++ '.' :: "geojson".data)).1 = _
  rw [nameSplitExt_geojsonName id hdot hne]

theorem pyWithStem_geojsonName (outDir id newStem : String)
    (hdot : '.' ∉ id.data) (hsl : '/' ∉ id.data) (hne : id ≠ "") :
    pyWithStem (outDir ++ "/" ++ id ++ ".geojson") newStem =
      outDir ++ "/" ++ newStem ++ ".geojson" := by
  apply strEq_of_data
  show (splitLastSlash (outDir ++ "/" ++ id ++ ".geojson").data).1 ++
      newStem.data ++
      (nameSplitExt
        (splitLastSlash (outDir ++ "/" ++ id ++ ".geojson").data).2).2 = _
  rw [splitLastSlash_geojsonName outDir id hsl]
  show (outDir.data ++ ['/']) ++ newStem.data ++
      (nameSplitExt (id.data ++ '.' :: "geojson".data)).2 = _
  rw [nameSplitExt_geojsonName id hdot hne, geojsonName_data]
  simp [List.append_assoc]

theorem string_append_empty (s : String) : s ++ "" = s := by
  apply strEq_of_data
  rw [dataAppend]
  simp

/-- The amended per-bucket path law: an identifier without dots appears
verbatim in the filename stem; the bucket key, when non-empty, is appended
to the stem with an underscore. -/
theorem geojsonPath_plain (outDir id : String) (hdot : '.' ∉ id.data)
    (hsl : '/' ∉ id.data) (hne : id ≠ "") (k : String) :
    geojsonPath outDir id k =
      outDir ++ "/" ++ id ++ (if k = "" then "" else "_" ++ k) ++
        ".geojson" := by
  unfold geojsonPath
  by_cases hk : k = ""
  · rw [if_pos (by simp [hk]), if_pos hk, pyWithSuffix_no_dot outDir id hdot hsl,
      string_append_empty]
  · rw [if_neg (by simp [hk]), if_neg hk, pyWithSuffix_no_dot outDir id hdot hsl,
      pyStem_geojsonName outDir id hdot hsl hne,
      pyWithStem_geojsonName outDir id (id ++ "_" ++ k) hdot hsl hne]
    apply strEq_of_data
    rw [dataAppend, dataAppend, dataAppend, dataAppend, dataAppend,
      dataAppend, dataAppend]
    simp [List.append_assoc]

theorem attachLd_obj (kvs : List (String × Json)) (ld : Option Json)
    (fb : Option String) :
    ∃ kvs', attachLd (.obj kvs) ld fb = .obj kvs' := by
  unfold attachLd
  split
  · exact ⟨_, rfl⟩
  · exact ⟨kvs, rfl⟩

theorem geoResource_providers (cfg : Cfg) (b : BBlock) (bbox : EnvelopeBBox)
    (fcs : List (String × Json)) :
    jget (geoResource cfg b bbox fcs) "providers" =
      some (.arr (geoProviders cfg b fcs)) := by
  unfold geoResource
  obtain ⟨kvs', hk⟩ := attachLd_obj
    [("type", .str "collection"), ("visibility", .str "default"),
     ("title", .str b.name), ("description", b.abstract.getD (.str "")),
     ("keywords", b.tags.getD (.arr [])),
     ("extents", .obj [("spatial", .obj [("bbox", bboxJson bbox)])])]
    b.ldContext cfg.fallbackSparql
  rw [hk]
  simp only [jset, jget]
  exact lookup_dictSet_self kvs' "providers" _

theorem absPath_head (p : String) : (absPath p).data.head? = some '/' := by
  unfold absPath
  by_cases h : p.data.head? = some '/'
  · rw [if_pos h]; exact h
  · rw [if_neg h]
    rw [dataAppend]
    rfl

/-- C9 amended: the GeoJSON branch writes one file per bucket at
geojsonPath (with_suffix then with_stem pathlib semantics) and records one
feature provider per written file pointing at an absolute path; the
building block's itemIdentifier appears verbatim in the filename stem
exactly when it contains no dot — with_suffix otherwise replaces its final
dot-suffix by .geojson. -/
theorem c9_geojson_file_layout (cfg : Cfg) (st : RunState) (b : BBlock)
    (fcs : List (String × Json)) (st' : RunState)
    (h : processGeojson cfg st b fcs = .ok st') :
    st'.writes = st.writes ++ fcs.map (fun kv =>
      (geojsonPath (cfg.dataDir ++ "/bblocks") b.itemIdentifier kv.1,
       kv.2)) ∧
    (∃ r, List.lookup b.itemIdentifier st'.outputResources = some r ∧
      jget r "providers" = some (.arr (fcs.map (fun kv =>
        providerFeature (absPath (geojsonPath (cfg.dataDir ++ "/bblocks")
          b.itemIdentifier kv.1)))))) ∧
    (∀ p : String, (absPath p).data.head? = some '/') ∧
    ('.' ∉ b.itemIdentifier.data → '/' ∉ b.itemIdentifier.data →
      b.itemIdentifier ≠ "" → ∀ k : String,
      geojsonPath (cfg.dataDir ++ "/bblocks") b.itemIdentifier k =
        (cfg.dataDir ++ "/bblocks") ++ "/" ++ b.itemIdentifier ++
          (if k = "" then "" else "_" ++ k) ++ ".geojson") := by
  obtain ⟨bbox, hb, hst⟩ := processGeojson_ok cfg st b fcs st' h
  refine ⟨?_, ?_, absPath_head, ?_⟩
  · rw [hst]
    rfl
  · refine ⟨geoResource cfg b bbox fcs, ?_, ?_⟩
    · rw [hst]
      exact lookup_dictSet_self _ _ _
    · rw [geoResource_providers]
      unfold geoProviders geoWrites
      rw [List.map_map]
      rfl
  · intro hdot hsl hne k
    exact geojsonPath_plain (cfg.dataDir ++ "/bblocks") b.itemIdentifier
      hdot hsl hne k

/-- Witness for the amended C9 at a concrete plain-identifier building
block with one bucket. -/
theorem c9_geojson_file_layout_witness :
    ∃ st', processGeojson cfg0 rs0 fxPlain fxPlainFcs = .ok st' ∧
      (st'.writes = rs0.writes ++ fxPlainFcs.map (fun kv =>
        (geojsonPath (cfg0.dataDir ++ "/bblocks") fxPlain.itemIdentifier
          kv.1, kv.2)) ∧
      (∃ r, List.lookup fxPlain.itemIdentifier st'.outputResources =
          some r ∧
        jget r "providers" = some (.arr (fxPlainFcs.map (fun kv =>
          providerFeature (absPath (geojsonPath (cfg0.dataDir ++ "/bblocks")
            fxPlain.itemIdentifier kv.1)))))) ∧
      (∀ p : String, (absPath p).data.head? = some '/') ∧
      ('.' ∉ fxPlain.itemIdentifier.data → '/' ∉ fxPlain.itemIdentifier.data →
        fxPlain.itemIdentifier ≠ "" → ∀ k : String,
        geojsonPath (cfg0.dataDir ++ "/bblocks") fxPlain.itemIdentifier k =
          (cfg0.dataDir ++ "/bblocks") ++ "/" ++ fxPlain.itemIdentifier ++
            (if k = "" then "" else "_" ++ k) ++ ".geojson")) := by
  refine ⟨_, rfl, ?_⟩
  exact c9_geojson_file_layout cfg0 rs0 fxPlain fxPlainFcs _ rfl

/-- C9 counterexample: a building block whose itemIdentifier is a.b writes
its single bucket to data/bblocks/a.geojson — the dotted identifier does
not appear verbatim, because with_suffix replaces its final dot-suffix. -/
theorem c9_counterexample :
    (processBBlocks cfg0 [fxDot]).toOption.map
        (fun st => st.writes.map Prod.fst) =
      some ["data/bblocks/a.geojson"] ∧
    ((processBBlocks cfg0 [fxDot]).toOption.map (fun st =>
        (st.writes.map Prod.fst).contains "data/bblocks/a.b.geojson")) =
      some false := ⟨rfl, rfl⟩

/- ## STAC identifier collisions (claim C1) and STAC directory layout
     (claim C2) -/

/-- C1 at its failing input: a building block with two STAC items whose raw
id is site writes both items to the same file site/site.json (the second
write overwriting the first), references ./site/site.json twice from the
catalog links, and never creates site_2.json — because added_items is
created and consulted but never populated, the collision-resolution loop is
dead.  The loop body itself, run against a set that did hold the previous
identifiers, would have produced the strictly increasing suffixes the spec
describes. -/
theorem c1_duplicate_ids_collide :
    (processBBlocks cfg0 [fxSite]).toOption.map
        (fun st => st.writes.map Prod.fst) =
      some ["data/stac/B/site/site.json", "data/stac/B/site/site.json",
            "data/stac/B/catalog.json"] ∧
    ((processBBlocks cfg0 [fxSite]).toOption.map (fun st =>
        (st.writes.map Prod.fst).contains "data/stac/B/site/site_2.json")) =
      some false ∧
    ((processBBlocks cfg0 [fxSite]).toOption.bind (fun st =>
        (List.lookup "data/stac/B/catalog.json" st.writes).map linkHrefs)) =
      some [some "./site/site.json", some "./site/site.json"] ∧
    dedupId 2 ["site"] "site" = "site_2" ∧
    dedupId 3 ["site", "site_2"] "site" = "site_3" :=
  ⟨rfl, rfl, rfl, rfl, rfl⟩

/-- C2 at its failing input: a register with two building blocks A and B2,
each holding one STAC item, writes the first catalog to
data/stac/A/catalog.json but the second to data/stac/A/B2/catalog.json —
nested under the first — and no file is ever written under data/stac/B2/,
because the stac_dir variable is reassigned inside the building-block
loop. -/
theorem c2_stac_dir_nesting :
    (processBBlocks cfg0 [fxA, fxB]).toOption.map
        (fun st => st.writes.map Prod.fst) =
      some ["data/stac/A/a/a.json", "data/stac/A/catalog.json",
            "data/stac/A/B2/b/b.json", "data/stac/A/B2/catalog.json"] ∧
    ((processBBlocks cfg0 [fxA, fxB]).toOption.map (fun st =>
        (st.writes.map Prod.fst).contains "data/stac/B2/catalog.json")) =
      some false ∧
    ((processBBlocks cfg0 [fxA]).toOption.map
        (fun st => st.writes.map Prod.fst)) =
      some ["data/stac/A/a/a.json", "data/stac/A/catalog.json"] :=
  ⟨rfl, rfl, rfl⟩

end BBlocks
